import Mathlib

/-!
Verification of the slope-stability core (Swedish / Ordinary Method of Slices,
Bishop's Simplified Method, slice discretization, soil-profile queries and the
critical-slip-circle grid search).

The Python source works on IEEE floats; the embedding below models the same
arithmetic over `ℝ`.  Conditionals on real comparisons use the (classical)
decidability instances of the linear order on `ℝ`, so most definitions are
`noncomputable`; concrete evaluations in witnesses are carried out by `simp` /
`norm_num` rewriting.

Fields of the Python dataclasses that no analysed function reads (the
settlement parameters of `SoilLayer`, and the per-slice report rows
`slices_data` of `AnalysisResults`, which are only serialized into tables) are
carried or omitted as noted at each structure.
-/

namespace SlopeStability

/-- Soil layer record (`SoilLayer` dataclass).  The settlement-only fields
`E`, `Cc`, `Cr`, `e0`, `OCR`, `Cv` are kept for fidelity although the
stability core never reads them. -/
structure SoilLayer where
  name : String
  thickness : ℝ
  gamma : ℝ
  gamma_sat : ℝ
  cohesion : ℝ
  phi : ℝ
  E : ℝ
  Cc : ℝ
  Cr : ℝ
  e0 : ℝ
  OCR : ℝ
  Cv : ℝ

/-- Slip circle record (`SlipCircle` dataclass). -/
structure SlipCircle where
  x_center : ℝ
  y_center : ℝ
  radius : ℝ

/-- Slope geometry dictionary (`slope_geometry` dict with keys
`height`, `slope_ratio`, `crest_width`, `toe_x`, `toe_elevation`). -/
structure SlopeGeometry where
  height : ℝ
  slope_ratio : ℝ
  crest_width : ℝ
  toe_x : ℝ
  toe_elevation : ℝ

/-- Slice record (the dict built by `slice_geometry`). -/
structure Slice where
  index : ℕ
  x_mid : ℝ
  x_left : ℝ
  x_right : ℝ
  y_surface : ℝ
  y_base : ℝ
  height : ℝ
  width : ℝ
  alpha : ℝ
  alpha_deg : ℝ

/-- Analysis result record (`AnalysisResults` dataclass).  The per-slice
report rows (`slices_data`), consumed only by plotting/report export, are not
modelled; the seismic suffix appended to the method label is likewise a pure
formatting detail and is not modelled. -/
structure AnalysisResults where
  method : String
  fs : ℝ
  critical_circle : SlipCircle
  converged : Bool
  iterations : ℕ

noncomputable section

/-- `get_slope_surface_y`: ground-surface elevation at horizontal offset `x`. -/
def get_slope_surface_y (x : ℝ) (g : SlopeGeometry) : ℝ :=
  if x < g.toe_x then g.toe_elevation
  else if x < g.toe_x + g.height * g.slope_ratio then
    g.toe_elevation + (x - g.toe_x) / g.slope_ratio
  else if x < g.toe_x + g.height * g.slope_ratio + g.crest_width then
    g.toe_elevation + g.height
  else g.toe_elevation + g.height

/-- The layer-walking loop of `get_soil_at_point`: accumulate thickness and
return the first layer whose cumulative thickness reaches `current_depth`. -/
def findLayerAux (current_depth : ℝ) (cum : ℝ) : List SoilLayer → Option SoilLayer
  | [] => none
  | layer :: rest =>
    if current_depth ≤ cum + layer.thickness then some layer
    else findLayerAux current_depth (cum + layer.thickness) rest

/-- `get_soil_at_point`: soil layer and submergence state at a point `(x, y)`.
Returns `(none, false)` when the point is above the ground surface, otherwise
walks the stack, falling back to the last layer below all defined layers;
returns `(none, false)` for an empty stack. -/
def get_soil_at_point (x y : ℝ) (g : SlopeGeometry)
    (soil_layers : List SoilLayer) (gwl : ℝ) : Option SoilLayer × Bool :=
  let surf := get_slope_surface_y x g
  if y > surf then (none, false)
  else
    match findLayerAux (surf - y) 0 soil_layers with
    | some layer => (some layer, decide (y < gwl))
    | none =>
      match soil_layers.getLast? with
      | some layer => (some layer, decide (y < gwl))
      | none => (none, false)

/-- `np.arctan2 y x` (note numpy's argument order: ordinate first). -/
def arctan2 (y x : ℝ) : ℝ :=
  if 0 < x then Real.arctan (y / x)
  else if x < 0 then
    (if 0 ≤ y then Real.arctan (y / x) + Real.pi else Real.arctan (y / x) - Real.pi)
  else if 0 < y then Real.pi / 2
  else if y < 0 then -(Real.pi / 2)
  else 0

/-- One loop body of `slice_geometry`: build the slice for column `i`, or
`none` when the column is skipped (`continue` in the source: negative
radicand, base at/above surface, or non-positive height). -/
def mkSliceAt (circle : SlipCircle) (g : SlopeGeometry)
    (x_left slice_width : ℝ) (i : ℕ) : Option Slice :=
  let x_mid := x_left + ((i : ℝ) + 0.5) * slice_width
  let x_l := x_left + (i : ℝ) * slice_width
  let x_r := x_left + ((i : ℝ) + 1) * slice_width
  let y_surface := get_slope_surface_y x_mid g
  let y_base_sq := circle.radius ^ 2 - (x_mid - circle.x_center) ^ 2
  if y_base_sq < 0 then none
  else
    let y_base := circle.y_center - Real.sqrt y_base_sq
    if y_base ≥ y_surface then none
    else
      let height := y_surface - y_base
      if height ≤ 0 then none
      else
        some { index := i, x_mid := x_mid, x_left := x_l, x_right := x_r,
               y_surface := y_surface, y_base := y_base, height := height,
               width := slice_width,
               alpha := arctan2 (x_mid - circle.x_center) (circle.y_center - y_base),
               alpha_deg := arctan2 (x_mid - circle.x_center) (circle.y_center - y_base)
                 * 180 / Real.pi }

/-- The clamped left end of the slicing span in `slice_geometry`. -/
def sliceXLeft (circle : SlipCircle) (g : SlopeGeometry) : ℝ :=
  max (circle.x_center
        - Real.sqrt (circle.radius ^ 2 - (circle.y_center - g.toe_elevation) ^ 2))
    (g.toe_x - 5)

/-- The clamped right end of the slicing span in `slice_geometry`. -/
def sliceXRight (circle : SlipCircle) (g : SlopeGeometry) : ℝ :=
  min (circle.x_center
        + Real.sqrt (circle.radius ^ 2 - (circle.y_center - g.toe_elevation) ^ 2))
    (g.toe_x + g.height * g.slope_ratio + g.crest_width + 5)

/-- The common column width of `slice_geometry`. -/
def sliceWidth (circle : SlipCircle) (g : SlopeGeometry) (n_slices : ℕ) : ℝ :=
  (sliceXRight circle g - sliceXLeft circle g) / (n_slices : ℝ)

/-- `slice_geometry`: discretize the soil mass over the circle into vertical
slices (`for i in range(n_slices)` with `continue` for skipped columns).
Returns `[]` when the circle cannot reach the toe elevation. -/
def slice_geometry (circle : SlipCircle) (g : SlopeGeometry) (n_slices : ℕ) : List Slice :=
  if circle.radius ^ 2 < (circle.y_center - g.toe_elevation) ^ 2 then []
  else
    (List.range n_slices).filterMap
      (mkSliceAt circle g (sliceXLeft circle g) (sliceWidth circle g n_slices))

/-- Per-slice body of `swedish_method`: returns `(resisting, driving)` for a
slice, or `none` when no soil layer is found at the slice midpoint (the
`continue` in the source). -/
def swedishSlice (soil_layers : List SoilLayer) (g : SlopeGeometry) (gwl : ℝ)
    (circle : SlipCircle) (seismic_coef : ℝ) (s : Slice) : Option (ℝ × ℝ) :=
  let y_mid := (s.y_surface + s.y_base) / 2
  match get_soil_at_point s.x_mid y_mid g soil_layers gwl with
  | (none, _) => none
  | (some soil, is_submerged) =>
    let gamma := if is_submerged then soil.gamma_sat else soil.gamma
    let W := gamma * s.height * s.width
    let l := s.width / Real.cos s.alpha
    let u := if s.y_base < gwl then 9.81 * (gwl - s.y_base) else 0
    let N := W * Real.cos s.alpha - u * l
    let T0 := W * Real.sin s.alpha
    let T := if seismic_coef > 0 then
        T0 + seismic_coef * W * (circle.y_center - y_mid) / circle.radius
      else T0
    let phi_rad := soil.phi * Real.pi / 180
    some (soil.cohesion * l + max 0 N * Real.tan phi_rad, T)

/-- `swedish_method`: Ordinary Method of Slices.  Note the driving
accumulator of the source, `abs(driving) if driving > 0 else -driving`,
is reproduced verbatim. -/
def swedish_method (slices : List Slice) (soil_layers : List SoilLayer)
    (g : SlopeGeometry) (gwl : ℝ) (circle : SlipCircle)
    (seismic_coef : ℝ) : AnalysisResults :=
  let pairs := slices.filterMap (swedishSlice soil_layers g gwl circle seismic_coef)
  let sum_resisting := (pairs.map Prod.fst).sum
  let sum_driving := (pairs.map fun p => if p.2 > 0 then |p.2| else -p.2).sum
  let fs := if |sum_driving| < 0.001 then (999 : ℝ) else sum_resisting / |sum_driving|
  { method := "Swedish (Ordinary Method)", fs := fs, critical_circle := circle,
    converged := true, iterations := 1 }

/-- The divide-by-zero guard of `bishop_simplified`: keep `m_α` unless its
magnitude falls below `0.001`, in which case replace it by `+0.001`. -/
def m_alpha_safe (m : ℝ) : ℝ := if |m| < 0.001 then 0.001 else m

/-- Per-slice body of one Bishop iteration at current factor of safety `fs`:
returns `(numerator, driving)`, or `none` when no soil layer is found. -/
def bishopSlice (soil_layers : List SoilLayer) (g : SlopeGeometry) (gwl : ℝ)
    (circle : SlipCircle) (seismic_coef : ℝ) (fs : ℝ) (s : Slice) : Option (ℝ × ℝ) :=
  let y_mid := (s.y_surface + s.y_base) / 2
  match get_soil_at_point s.x_mid y_mid g soil_layers gwl with
  | (none, _) => none
  | (some soil, is_submerged) =>
    let gamma := if is_submerged then soil.gamma_sat else soil.gamma
    let W := gamma * s.height * s.width
    let b := s.width
    let u := if s.y_base < gwl then 9.81 * (gwl - s.y_base) else 0
    let phi_rad := soil.phi * Real.pi / 180
    let m_alpha := m_alpha_safe
      (Real.cos s.alpha + Real.sin s.alpha * Real.tan phi_rad / fs)
    let numerator := (soil.cohesion * b + (W - u * b) * Real.tan phi_rad) / m_alpha
    let driving0 := W * Real.sin s.alpha
    let driving := if seismic_coef > 0 then
        driving0 + seismic_coef * W * (circle.y_center - y_mid) / circle.radius
      else driving0
    some (numerator, driving)

/-- One full Bishop iteration: map the current `fs` to the new one. -/
def bishopStep (slices : List Slice) (soil_layers : List SoilLayer)
    (g : SlopeGeometry) (gwl : ℝ) (circle : SlipCircle) (seismic_coef : ℝ)
    (fs : ℝ) : ℝ :=
  let pairs := slices.filterMap (bishopSlice soil_layers g gwl circle seismic_coef fs)
  let sum_numerator := (pairs.map Prod.fst).sum
  let sum_driving := (pairs.map Prod.snd).sum
  if |sum_driving| < 0.001 then (999 : ℝ) else sum_numerator / |sum_driving|

/-- The convergence loop of `bishop_simplified` (`for iteration in
range(max_iter)`), with the remaining iteration budget as fuel.  Returns
`(fs, converged, iterations)`. -/
def bishopLoop (step : ℝ → ℝ) (tol : ℝ) : ℕ → ℝ → ℝ × Bool × ℕ
  | 0, fs => (fs, false, 0)
  | fuel + 1, fs =>
    let fs_new := step fs
    if |fs_new - fs| < tol then (fs_new, true, 1)
    else
      let r := bishopLoop step tol fuel fs_new
      (r.1, r.2.1, r.2.2 + 1)

/-- `bishop_simplified`: Bishop's Simplified Method, fixed-point iteration
starting from the initial guess `1.5`. -/
def bishop_simplified (slices : List Slice) (soil_layers : List SoilLayer)
    (g : SlopeGeometry) (gwl : ℝ) (circle : SlipCircle) (seismic_coef : ℝ)
    (max_iter : ℕ) (tol : ℝ) : AnalysisResults :=
  let r := bishopLoop (bishopStep slices soil_layers g gwl circle seismic_coef)
    tol max_iter 1.5
  { method := "Bishop's Simplified", fs := r.1, critical_circle := circle,
    converged := r.2.1, iterations := r.2.2 }

/-- `np.linspace a b n`: `n` evenly spaced points from `a` to `b` inclusive. -/
def linspace (a b : ℝ) (n : ℕ) : List ℝ :=
  (List.range n).map fun i => a + (b - a) * (i : ℝ) / ((n : ℝ) - 1)

/-- The radius computed inside the search grid for a center `(x_c, y_c)` and
radius factor `r_f`: average of distances to toe and crest top, scaled. -/
def candidateRadius (g : SlopeGeometry) (x_c y_c r_f : ℝ) : ℝ :=
  let slope_width := g.height * g.slope_ratio
  let crest_elevation := g.toe_elevation + g.height
  let dist_to_toe := Real.sqrt ((x_c - g.toe_x) ^ 2 + (y_c - g.toe_elevation) ^ 2)
  let dist_to_crest := Real.sqrt ((x_c - (g.toe_x + slope_width)) ^ 2
    + (y_c - crest_elevation) ^ 2)
  (dist_to_toe + dist_to_crest) / 2 * r_f

/-- The circle a grid candidate `(x_c, y_c, r_f)` evaluates. -/
def candidateCircle (g : SlopeGeometry) (c : ℝ × ℝ × ℝ) : SlipCircle :=
  ⟨c.1, c.2.1, candidateRadius g c.1 c.2.1 c.2.2⟩

/-- The grid of `search_critical_circle`: center x-range crossed with center
y-range crossed with the radius factors, in source enumeration order. -/
def searchCandidates (g : SlopeGeometry) (n_circles : ℕ) : List (ℝ × ℝ × ℝ) :=
  let slope_width := g.height * g.slope_ratio
  let crest_elevation := g.toe_elevation + g.height
  let grid := Nat.sqrt n_circles
  let x_range := linspace (g.toe_x - g.height * 0.5)
    (g.toe_x + slope_width * 0.3) grid
  let y_range := linspace (crest_elevation + g.height * 0.2)
    (crest_elevation + g.height * 1.5) grid
  let r_factors : List ℝ := [0.8, 0.9, 1.0, 1.1, 1.2, 1.3, 1.4, 1.5]
  x_range.flatMap fun x_c => y_range.flatMap fun y_c =>
    r_factors.map fun r_f => (x_c, y_c, r_f)

/-- Dispatch on the method-selector string, as in the source
(`if method == "Swedish"` … `else` Bishop with default `max_iter`/`tol`). -/
def runMethod (method : String) (slices : List Slice)
    (soil_layers : List SoilLayer) (g : SlopeGeometry) (gwl : ℝ)
    (circle : SlipCircle) (seismic_coef : ℝ) : AnalysisResults :=
  if method = "Swedish" then
    swedish_method slices soil_layers g gwl circle seismic_coef
  else
    bishop_simplified slices soil_layers g gwl circle seismic_coef 100 0.001

/-- Evaluate one grid candidate: apply the geometric guards and the
minimum-slice-count guard, then run the selected method.  `none` means the
candidate was skipped by a `continue` in the source. -/
def evalCandidate (g : SlopeGeometry) (soil_layers : List SoilLayer) (gwl : ℝ)
    (method : String) (seismic_coef : ℝ) (c : ℝ × ℝ × ℝ) : Option AnalysisResults :=
  let radius := candidateRadius g c.1 c.2.1 c.2.2
  if radius < g.height * 0.5 ∨ radius > g.height * 4 then none
  else if c.2.1 - radius > g.toe_elevation - 0.5 then none
  else if c.2.1 < g.toe_elevation + g.height * 0.5 then none
  else
    let circle : SlipCircle := ⟨c.1, c.2.1, radius⟩
    let slices := slice_geometry circle g 15
    if slices.length < 5 then none
    else some (runMethod method slices soil_layers g gwl circle seismic_coef)

/-- The best-so-far update of the search loop: keep the new result when it
improves the minimum and exceeds the `0.1` floor.  (The source's `min_fs`
always equals the fs of the best result, so only the latter is carried.) -/
def searchStep (g : SlopeGeometry) (soil_layers : List SoilLayer) (gwl : ℝ)
    (method : String) (seismic_coef : ℝ)
    (acc : Option AnalysisResults) (c : ℝ × ℝ × ℝ) : Option AnalysisResults :=
  match evalCandidate g soil_layers gwl method seismic_coef c with
  | none => acc
  | some result =>
    match acc with
    | none => if result.fs > 0.1 then some result else acc
    | some best =>
      if result.fs < best.fs ∧ result.fs > 0.1 then some result else acc

/-- `search_critical_circle`: grid search over circle candidates followed by
the refinement pass (25 slices on the best circle).  Returns `none` when no
candidate was accepted. -/
def search_critical_circle (g : SlopeGeometry) (soil_layers : List SoilLayer)
    (gwl : ℝ) (method : String) (n_circles : ℕ) (seismic_coef : ℝ) :
    Option AnalysisResults :=
  let best := (searchCandidates g n_circles).foldl
    (searchStep g soil_layers gwl method seismic_coef) none
  match best with
  | none => none
  | some best_result =>
    let circle := best_result.critical_circle
    let slices := slice_geometry circle g 25
    some (runMethod method slices soil_layers g gwl circle seismic_coef)

/-- Modelled from the spec (§4.4 and claim C1, the claim as frozen): per-slice
resisting and driving contributions of the Swedish method, with weight from
the saturated/moist unit weight, base length `l = width / cos α`, pore
pressure `u = 9.81·max(0, GWL − base)`, `N = W·cos α − u·l`, and
`T = W·sin α` plus the seismic addendum when `k_h > 0`. -/
def claimSwedishSlice (soil_layers : List SoilLayer) (g : SlopeGeometry) (gwl : ℝ)
    (circle : SlipCircle) (kh : ℝ) (s : Slice) : Option (ℝ × ℝ) :=
  let y_mid := (s.y_surface + s.y_base) / 2
  match get_soil_at_point s.x_mid y_mid g soil_layers gwl with
  | (none, _) => none
  | (some soil, is_submerged) =>
    let W := (if is_submerged then soil.gamma_sat else soil.gamma) * s.height * s.width
    let l := s.width / Real.cos s.alpha
    let u := 9.81 * max 0 (gwl - s.y_base)
    let N := W * Real.cos s.alpha - u * l
    let T := W * Real.sin s.alpha
      + (if kh > 0 then kh * W * (circle.y_center - y_mid) / circle.radius else 0)
    some (soil.cohesion * l + max 0 N * Real.tan (soil.phi * Real.pi / 180), T)

/-- Modelled from the spec (claim C1 as frozen): the claimed factor of safety
`ΣResisting / |ΣDriving|`, with the sentinel `999` exactly when the absolute
value of the **sum** of the driving contributions is below `0.001`. -/
def claimSwedishFS (slices : List Slice) (soil_layers : List SoilLayer)
    (g : SlopeGeometry) (gwl : ℝ) (circle : SlipCircle) (kh : ℝ) : ℝ :=
  let pairs := slices.filterMap (claimSwedishSlice soil_layers g gwl circle kh)
  let sumR := (pairs.map Prod.fst).sum
  let sumT := (pairs.map Prod.snd).sum
  if |sumT| < 0.001 then 999 else sumR / |sumT|

/-- The amended factor-of-safety formula (claim C1 corrected): the denominator
is the sum of the **absolute values** of the per-slice driving contributions,
`Σ|T|`, with the sentinel `999` exactly when `Σ|T| < 0.001`. -/
def amendedSwedishFS (slices : List Slice) (soil_layers : List SoilLayer)
    (g : SlopeGeometry) (gwl : ℝ) (circle : SlipCircle) (kh : ℝ) : ℝ :=
  let pairs := slices.filterMap (claimSwedishSlice soil_layers g gwl circle kh)
  let sumR := (pairs.map Prod.fst).sum
  let sumT := (pairs.map fun p => |p.2|).sum
  if sumT < 0.001 then 999 else sumR / sumT

/-- Modelled from the spec (§4.1, claim C7): walk the soil stack until the
cumulative thickness reaches the depth, returning that layer, with the last
layer as fallback for depths beyond the total stack thickness. -/
def selectByDepth (depth : ℝ) : List SoilLayer → Option SoilLayer
  | [] => none
  | layer :: rest =>
    if depth ≤ layer.thickness then some layer
    else
      match rest with
      | [] => some layer
      | _ :: _ => selectByDepth (depth - layer.thickness) rest

/-- Modelled from the spec (§4.1): `soilAt(x, y)` returns NOT_FOUND when `y`
is above the ground surface at `x`, and otherwise the layer selected by
depth-below-surface together with `isSubmerged = (y < GWL)`. -/
def soilAt (x y : ℝ) (g : SlopeGeometry) (soil_layers : List SoilLayer)
    (gwl : ℝ) : Option SoilLayer × Bool :=
  let surf := get_slope_surface_y x g
  if y > surf then (none, false)
  else (selectByDepth (surf - y) soil_layers, decide (y < gwl))

/-- The per-slice seismic moment factor `W · (y_center − y_mid) / R`
multiplying the seismic coefficient in the driving term (`0` for a slice
whose midpoint finds no soil). -/
def seismicFactor (soil_layers : List SoilLayer) (g : SlopeGeometry) (gwl : ℝ)
    (circle : SlipCircle) (s : Slice) : ℝ :=
  let y_mid := (s.y_surface + s.y_base) / 2
  match get_soil_at_point s.x_mid y_mid g soil_layers gwl with
  | (none, _) => 0
  | (some soil, is_submerged) =>
    (if is_submerged then soil.gamma_sat else soil.gamma) * s.height * s.width
      * (circle.y_center - y_mid) / circle.radius

/-- The list of `(resisting, driving)` pairs accumulated by `swedish_method`. -/
def swedishPairs (slices : List Slice) (soil_layers : List SoilLayer)
    (g : SlopeGeometry) (gwl : ℝ) (circle : SlipCircle) (seismic_coef : ℝ) :
    List (ℝ × ℝ) :=
  slices.filterMap (swedishSlice soil_layers g gwl circle seismic_coef)

/-- The resisting-force accumulator `sum_resisting` of `swedish_method`. -/
def swedishResistingSum (slices : List Slice) (soil_layers : List SoilLayer)
    (g : SlopeGeometry) (gwl : ℝ) (circle : SlipCircle) (seismic_coef : ℝ) : ℝ :=
  ((swedishPairs slices soil_layers g gwl circle seismic_coef).map Prod.fst).sum

/-- The driving-force accumulator `sum_driving` of `swedish_method`
(`abs(driving) if driving > 0 else -driving` per slice). -/
def swedishDrivingSum (slices : List Slice) (soil_layers : List SoilLayer)
    (g : SlopeGeometry) (gwl : ℝ) (circle : SlipCircle) (seismic_coef : ℝ) : ℝ :=
  ((swedishPairs slices soil_layers g gwl circle seismic_coef).map
    fun p => if p.2 > 0 then |p.2| else -p.2).sum

/-- Concrete fixture: a purely cohesive clay layer with cohesion `co`
(`φ = 0`, moist unit weight 20, saturated 21, thickness 5). -/
def clayLayer (co : ℝ) : SoilLayer :=
  ⟨"Clay", 5, 20, 21, co, 0, 0, 0, 0, 0, 0, 0⟩

/-- Concrete fixture: unit-height slope with toe at the origin. -/
def testGeo : SlopeGeometry := ⟨1, 1, 1, 0, 0⟩

/-- Concrete fixture: slip circle centred 10 above the origin, radius 10. -/
def testCircle : SlipCircle := ⟨0, 10, 10⟩

/-- Concrete fixture: a flat slice record of unit height at midpoint `xm`
with width `w` and base angle `a`, base and surface both at elevation 0. -/
def flatSlice (xm w a : ℝ) : Slice := ⟨0, xm, 0, 0, 0, 0, 1, w, a, 0⟩

end

/-! ### Shared evaluation helpers -/

lemma sqrt_eq_of_sq {a b : ℝ} (hb : 0 ≤ b) (h : b ^ 2 = a) : Real.sqrt a = b := by
  rw [← h, Real.sqrt_sq hb]

lemma sin_asin35 : Real.sin (Real.arcsin (3 / 5)) = 3 / 5 :=
  Real.sin_arcsin (by norm_num) (by norm_num)

lemma cos_asin35 : Real.cos (Real.arcsin (3 / 5)) = 4 / 5 := by
  rw [Real.cos_arcsin]
  exact sqrt_eq_of_sq (by norm_num) (by norm_num)

lemma surface_testGeo_neg {x : ℝ} (hx : x < 0) : get_slope_surface_y x testGeo = 0 := by
  unfold get_slope_surface_y testGeo
  rw [if_pos hx]

/-- Soil lookup over the single clay layer succeeds, unsubmerged, for any
point left of the toe with elevation in `[-5, 0]`. -/
lemma soil_at_clay (co x y : ℝ) (hx : x < 0) (hy0 : y ≤ 0) (hy5 : -5 ≤ y) :
    get_soil_at_point x y testGeo [clayLayer co] (-100) = (some (clayLayer co), false) := by
  unfold get_soil_at_point
  rw [surface_testGeo_neg hx, if_neg (by simpa using hy0)]
  have hfind : findLayerAux (0 - y) 0 [clayLayer co] = some (clayLayer co) := by
    unfold findLayerAux clayLayer
    rw [if_pos (by norm_num; linarith)]
  rw [hfind]
  have : ¬ y < -100 := by linarith
  simp [this]

/-- Evaluation of the Swedish per-slice body on a flat fixture slice over the
clay layer: resisting `c·l` and driving `W·sin α` plus the seismic term. -/
lemma swedishSlice_flat (co xm w a k : ℝ) (c : SlipCircle) (hx : xm < 0) :
    swedishSlice [clayLayer co] testGeo (-100) c k (flatSlice xm w a)
      = some (co * (w / Real.cos a),
          if k > 0 then 20 * w * Real.sin a + k * (20 * w) * c.y_center / c.radius
          else 20 * w * Real.sin a) := by
  have hsoil := soil_at_clay co xm ((0 + 0) / 2) hx (by norm_num) (by norm_num)
  simp only [swedishSlice, flatSlice]
  rw [hsoil]
  simp only [clayLayer, Option.some.injEq, Prod.mk.injEq]
  norm_num [Real.tan_zero]

/-- Evaluation of the Bishop per-slice body on a flat fixture slice over the
clay layer: numerator `c·b / m̂_α` and the same driving term as Swedish. -/
lemma bishopSlice_flat (co xm w a k fs : ℝ) (c : SlipCircle) (hx : xm < 0) :
    bishopSlice [clayLayer co] testGeo (-100) c k fs (flatSlice xm w a)
      = some (co * w / m_alpha_safe (Real.cos a),
          if k > 0 then 20 * w * Real.sin a + k * (20 * w) * c.y_center / c.radius
          else 20 * w * Real.sin a) := by
  have hsoil := soil_at_clay co xm ((0 + 0) / 2) hx (by norm_num) (by norm_num)
  simp only [bishopSlice, flatSlice]
  rw [hsoil]
  simp only [clayLayer, Option.some.injEq, Prod.mk.injEq]
  norm_num [Real.tan_zero]

/-- If one Bishop iteration is the constant map to `v`, the loop returns `v`
whenever at least one iteration runs. -/
lemma bishopLoop_const {step : ℝ → ℝ} {v tol : ℝ} (hs : ∀ x, step x = v)
    (htol : 0 < tol) :
    ∀ fuel, 1 ≤ fuel → ∀ fs0, (bishopLoop step tol fuel fs0).1 = v := by
  have aux : ∀ n, (bishopLoop step tol n v).1 = v := by
    intro n
    cases n with
    | zero => rfl
    | succ m =>
      simp only [bishopLoop, hs]
      rw [if_pos (by simpa using htol)]
  intro fuel hfuel fs0
  cases fuel with
  | zero => omega
  | succ m =>
    simp only [bishopLoop, hs]
    split
    · rfl
    · simpa using aux m

/-! ### C1: the Swedish factor-of-safety formula -/

/-- The per-slice body of the implementation agrees with the per-slice
quantities described by the spec (weight, base length, pore pressure via
`max`, normal force, seismic addendum). -/
lemma swedishSlice_eq_claim (soil_layers : List SoilLayer) (g : SlopeGeometry)
    (gwl : ℝ) (circle : SlipCircle) (kh : ℝ) (s : Slice) :
    swedishSlice soil_layers g gwl circle kh s
      = claimSwedishSlice soil_layers g gwl circle kh s := by
  unfold swedishSlice claimSwedishSlice
  rcases hq : get_soil_at_point s.x_mid ((s.y_surface + s.y_base) / 2) g soil_layers gwl
    with ⟨o, b⟩
  have hu : (if s.y_base < gwl then (9.81 : ℝ) * (gwl - s.y_base) else 0)
      = 9.81 * max 0 (gwl - s.y_base) := by
    split_ifs with h1
    · rw [max_eq_right (by linarith)]
    · rw [max_eq_left (by linarith)]; ring
  have hT : ∀ T0 x : ℝ, (if kh > 0 then T0 + x else T0)
      = T0 + (if kh > 0 then x else 0) := by
    intro T0 x; split_ifs <;> ring
  cases o with
  | none => simp only [hq]
  | some soil => simp only [hq, hu, hT]

/-- The pair accumulated for the first counterexample slice
(`α = arcsin (3/5)`, so `sin α = 3/5`, `cos α = 4/5`). -/
lemma swedishSlice_cxA :
    swedishSlice [clayLayer 10] testGeo (-100) testCircle 0
      (flatSlice (-1) 1 (Real.arcsin (3 / 5))) = some (12.5, 12) := by
  rw [swedishSlice_flat 10 (-1) 1 (Real.arcsin (3 / 5)) 0 testCircle (by norm_num)]
  norm_num [sin_asin35, cos_asin35]

/-- The pair accumulated for the second counterexample slice
(`α = −arcsin (3/5)`, so `sin α = −3/5`, `cos α = 4/5`). -/
lemma swedishSlice_cxB :
    swedishSlice [clayLayer 10] testGeo (-100) testCircle 0
      (flatSlice (-2) 1 (-Real.arcsin (3 / 5))) = some (12.5, -12) := by
  rw [swedishSlice_flat 10 (-2) 1 (-Real.arcsin (3 / 5)) 0 testCircle (by norm_num)]
  norm_num [Real.sin_neg, Real.cos_neg, sin_asin35, cos_asin35]

/-- C1 (counterexample): two symmetric slices with driving contributions
`+12` and `−12`.  The code sums per-slice absolute values, giving
denominator `24` and `FS = 25/24`, while the claimed formula
`ΣResisting / |ΣDriving|` has `|ΣDriving| = 0 < 0.001` and yields the
sentinel `999`. -/
theorem C1_counterexample :
    (swedish_method
       [flatSlice (-1) 1 (Real.arcsin (3 / 5)), flatSlice (-2) 1 (-Real.arcsin (3 / 5))]
       [clayLayer 10] testGeo (-100) testCircle 0).fs = 25 / 24 ∧
    claimSwedishFS
       [flatSlice (-1) 1 (Real.arcsin (3 / 5)), flatSlice (-2) 1 (-Real.arcsin (3 / 5))]
       [clayLayer 10] testGeo (-100) testCircle 0 = 999 ∧
    (25 / 24 : ℝ) ≠ 999 := by
  have hA2 : claimSwedishSlice [clayLayer 10] testGeo (-100) testCircle 0
      (flatSlice (-1) 1 (Real.arcsin (3 / 5))) = some (12.5, 12) := by
    rw [← swedishSlice_eq_claim]; exact swedishSlice_cxA
  have hB2 : claimSwedishSlice [clayLayer 10] testGeo (-100) testCircle 0
      (flatSlice (-2) 1 (-Real.arcsin (3 / 5))) = some (12.5, -12) := by
    rw [← swedishSlice_eq_claim]; exact swedishSlice_cxB
  refine ⟨?_, ?_, by norm_num⟩
  · simp only [swedish_method, List.filterMap_cons, List.filterMap_nil,
      swedishSlice_cxA, swedishSlice_cxB, List.map_cons, List.map_nil,
      List.sum_cons, List.sum_nil]
    norm_num
  · simp only [claimSwedishFS, List.filterMap_cons, List.filterMap_nil,
      hA2, hB2, List.map_cons, List.map_nil, List.sum_cons, List.sum_nil]
    norm_num

/-- C1 (amended): for every input, the Swedish factor of safety equals
`ΣResisting / Σ|T|` over the slices whose midpoint finds a soil layer, with
the per-slice quantities exactly as the claim describes, and the sentinel
`999` exactly when the sum of the per-slice absolute driving contributions
`Σ|T|` (not the absolute value of the sum) is below `0.001`. -/
theorem C1_swedish_fs_formula (slices : List Slice) (soil_layers : List SoilLayer)
    (g : SlopeGeometry) (gwl : ℝ) (circle : SlipCircle) (kh : ℝ) :
    (swedish_method slices soil_layers g gwl circle kh).fs
      = amendedSwedishFS slices soil_layers g gwl circle kh := by
  have hf : swedishSlice soil_layers g gwl circle kh
      = claimSwedishSlice soil_layers g gwl circle kh :=
    funext (swedishSlice_eq_claim soil_layers g gwl circle kh)
  have habs : (fun p : ℝ × ℝ => if p.2 > 0 then |p.2| else -p.2)
      = fun p : ℝ × ℝ => |p.2| := by
    funext p
    split_ifs with h
    · rfl
    · rw [abs_of_nonpos (le_of_not_lt h)]
  simp only [swedish_method, amendedSwedishFS, hf, habs]
  have hnn : 0 ≤ ((slices.filterMap
      (claimSwedishSlice soil_layers g gwl circle kh)).map fun p => |p.2|).sum := by
    apply List.sum_nonneg
    intro x hx
    rcases List.mem_map.mp hx with ⟨p, _, rfl⟩
    exact abs_nonneg _
  rw [abs_of_nonneg hnn]

/-! ### C6: horizontal slices give the sentinel -/

/-- A slice with base angle `0` contributes zero driving force in the Swedish
method when the seismic coefficient is `0`. -/
lemma swedishSlice_driving_zero {soil_layers : List SoilLayer} {g : SlopeGeometry}
    {gwl : ℝ} {circle : SlipCircle} {s : Slice} (ha : s.alpha = 0) {p : ℝ × ℝ}
    (hp : swedishSlice soil_layers g gwl circle 0 s = some p) : p.2 = 0 := by
  rcases hq : get_soil_at_point s.x_mid ((s.y_surface + s.y_base) / 2) g soil_layers gwl
    with ⟨o, b⟩
  simp only [swedishSlice, hq] at hp
  cases o with
  | none => cases hp
  | some soil =>
    simp only [Option.some.injEq] at hp
    subst hp
    simp [ha, Real.sin_zero]

/-- A slice with base angle `0` contributes zero driving force in a Bishop
iteration when the seismic coefficient is `0`. -/
lemma bishopSlice_driving_zero {soil_layers : List SoilLayer} {g : SlopeGeometry}
    {gwl : ℝ} {circle : SlipCircle} {fs : ℝ} {s : Slice} (ha : s.alpha = 0) {p : ℝ × ℝ}
    (hp : bishopSlice soil_layers g gwl circle 0 fs s = some p) : p.2 = 0 := by
  rcases hq : get_soil_at_point s.x_mid ((s.y_surface + s.y_base) / 2) g soil_layers gwl
    with ⟨o, b⟩
  simp only [bishopSlice, hq] at hp
  cases o with
  | none => cases hp
  | some soil =>
    simp only [Option.some.injEq] at hp
    subst hp
    simp [ha, Real.sin_zero]

/-- C6: when every slice has base angle `α = 0`, every layer has `φ = 0` and
the seismic coefficient is `0`, all per-slice driving terms vanish, so both
`swedish_method` and `bishop_simplified` return the sentinel `999` (for any
iteration budget of at least one and any positive tolerance). -/
theorem C6_horizontal_sentinel (slices : List Slice) (soil_layers : List SoilLayer)
    (g : SlopeGeometry) (gwl : ℝ) (circle : SlipCircle) (max_iter : ℕ) (tol : ℝ)
    (ha : ∀ s ∈ slices, s.alpha = 0) (hphi : ∀ L ∈ soil_layers, L.phi = 0)
    (hmi : 1 ≤ max_iter) (htol : 0 < tol) :
    (swedish_method slices soil_layers g gwl circle 0).fs = 999 ∧
    (bishop_simplified slices soil_layers g gwl circle 0 max_iter tol).fs = 999 := by
  constructor
  · have hsum : ((slices.filterMap (swedishSlice soil_layers g gwl circle 0)).map
        fun p => if p.2 > 0 then |p.2| else -p.2).sum = 0 := by
      apply List.sum_eq_zero
      intro x hx
      rcases List.mem_map.mp hx with ⟨p, hp, rfl⟩
      rcases List.mem_filterMap.mp hp with ⟨s, hs, hsome⟩
      rw [swedishSlice_driving_zero (ha s hs) hsome]
      norm_num
    simp only [swedish_method, hsum]
    norm_num
  · have hstep : ∀ fs, bishopStep slices soil_layers g gwl circle 0 fs = 999 := by
      intro fs
      have hsum : ((slices.filterMap (bishopSlice soil_layers g gwl circle 0 fs)).map
          Prod.snd).sum = 0 := by
        apply List.sum_eq_zero
        intro x hx
        rcases List.mem_map.mp hx with ⟨p, hp, rfl⟩
        rcases List.mem_filterMap.mp hp with ⟨s, hs, hsome⟩
        exact bishopSlice_driving_zero (ha s hs) hsome
      simp only [bishopStep, hsum]
      norm_num
    simp only [bishop_simplified]
    exact bishopLoop_const hstep htol max_iter hmi 1.5

/-- Witness for C6 at a concrete flat slice over the clay layer. -/
theorem C6_horizontal_sentinel_witness :
    (swedish_method [flatSlice (-1) 1 0] [clayLayer 10] testGeo (-100) testCircle 0).fs
      = 999 ∧
    (bishop_simplified [flatSlice (-1) 1 0] [clayLayer 10] testGeo (-100) testCircle 0
      100 0.001).fs = 999 :=
  C6_horizontal_sentinel [flatSlice (-1) 1 0] [clayLayer 10] testGeo (-100) testCircle
    100 0.001
    (by intro s hs; simp only [List.mem_singleton] at hs; subst hs; rfl)
    (by intro L hL; simp only [List.mem_singleton] at hL; subst hL; rfl)
    (by norm_num) (by norm_num)

/-! ### C7: the soil query over a non-empty stack -/

lemma getLast?_of_ne_nil {α : Type} {l : List α} (h : l ≠ []) :
    ∃ a, l.getLast? = some a := by
  induction l with
  | nil => exact absurd rfl h
  | cons x xs ih =>
    cases xs with
    | nil => exact ⟨x, rfl⟩
    | cons y ys =>
      rcases ih (by simp) with ⟨a, ha⟩
      exact ⟨a, by rw [List.getLast?_cons_cons]; exact ha⟩

lemma selectByDepth_of_ne_nil (d : ℝ) {layers : List SoilLayer} (h : layers ≠ []) :
    ∃ l, selectByDepth d layers = some l := by
  induction layers generalizing d with
  | nil => exact absurd rfl h
  | cons L rest ih =>
    unfold selectByDepth
    split_ifs with h1
    · exact ⟨L, rfl⟩
    · cases rest with
      | nil => exact ⟨L, rfl⟩
      | cons L2 rest2 => exact ih (d - L.thickness) (by simp)

lemma findLayerAux_shift (layers : List SoilLayer) :
    ∀ d c : ℝ, findLayerAux d c layers = findLayerAux (d - c) 0 layers := by
  induction layers with
  | nil => intro d c; rfl
  | cons L rest ih =>
    intro d c
    unfold findLayerAux
    rw [zero_add]
    by_cases h1 : d ≤ c + L.thickness
    · rw [if_pos h1, if_pos (by linarith)]
    · rw [if_neg h1, if_neg (by intro hc; exact h1 (by linarith))]
      rw [ih d (c + L.thickness), ih (d - c) L.thickness]
      congr 1
      ring

/-- The spec-modelled layer selection agrees with the implementation's walk
followed by the last-layer fallback, for every non-empty stack. -/
lemma selectByDepth_eq_walk (d : ℝ) {layers : List SoilLayer} (h : layers ≠ []) :
    selectByDepth d layers
      = match findLayerAux d 0 layers with
        | some l => some l
        | none => layers.getLast? := by
  induction layers generalizing d with
  | nil => exact absurd rfl h
  | cons L rest ih =>
    cases rest with
    | nil =>
      unfold selectByDepth findLayerAux
      rw [zero_add]
      split_ifs with h1
      · rfl
      · rfl
    | cons L2 rest2 =>
      unfold selectByDepth findLayerAux
      rw [zero_add]
      split_ifs with h1
      · rfl
      · rw [findLayerAux_shift (L2 :: rest2) d L.thickness,
          ih (d - L.thickness) (by simp), List.getLast?_cons_cons]

/-- C7: over a non-empty soil stack, `get_soil_at_point` agrees with the
spec-modelled `soilAt` (NOT_FOUND exactly above the ground surface, first
layer whose cumulative thickness reaches the depth, last-layer fallback,
`isSubmerged = (y < GWL)`), and its layer component is `none` exactly when
`y` is strictly above the surface. -/
theorem C7_soil_query (x y : ℝ) (g : SlopeGeometry) (soil_layers : List SoilLayer)
    (gwl : ℝ) (h : soil_layers ≠ []) :
    get_soil_at_point x y g soil_layers gwl = soilAt x y g soil_layers gwl ∧
    ((get_soil_at_point x y g soil_layers gwl).1 = none ↔ get_slope_surface_y x g < y) := by
  have hmain : get_soil_at_point x y g soil_layers gwl = soilAt x y g soil_layers gwl := by
    simp only [get_soil_at_point, soilAt]
    rw [selectByDepth_eq_walk (get_slope_surface_y x g - y) h]
    split_ifs with h1
    · rfl
    · rcases hf : findLayerAux (get_slope_surface_y x g - y) 0 soil_layers with _ | l
      · rcases getLast?_of_ne_nil h with ⟨last, hl⟩
        simp only [hf, hl]
      · simp only [hf]
  refine ⟨hmain, ?_⟩
  rw [hmain]
  simp only [soilAt]
  split_ifs with h1
  · simpa using h1
  · rcases selectByDepth_of_ne_nil (get_slope_surface_y x g - y) h with ⟨l, hl⟩
    simp only [hl]
    constructor
    · intro hc; cases hc
    · intro hlt; exact absurd hlt h1

/-- Witness for C7 at a concrete point below the fixture surface. -/
theorem C7_soil_query_witness :
    ([clayLayer 10] : List SoilLayer) ≠ [] ∧
    get_soil_at_point (-1) (-1) testGeo [clayLayer 10] (-100)
      = soilAt (-1) (-1) testGeo [clayLayer 10] (-100) :=
  ⟨by simp,
   (C7_soil_query (-1) (-1) testGeo [clayLayer 10] (-100) (by simp)).1⟩

/-! ### C2: seismic-coefficient monotonicity -/

/-- The per-slice driving accumulator of the source equals the absolute
value of the driving contribution. -/
lemma drivingContrib_eq_abs (p : ℝ × ℝ) :
    (if p.2 > 0 then |p.2| else -p.2) = |p.2| := by
  split_ifs with h
  · rfl
  · rw [abs_of_nonpos (le_of_not_lt h)]

/-- The Swedish per-slice body skips a slice independently of the seismic
coefficient (only the soil lookup decides it). -/
lemma swedishSlice_none_iff {soil_layers : List SoilLayer} {g : SlopeGeometry}
    {gwl : ℝ} {circle : SlipCircle} {k : ℝ} {s : Slice} :
    swedishSlice soil_layers g gwl circle k s = none ↔
      (get_soil_at_point s.x_mid ((s.y_surface + s.y_base) / 2) g soil_layers gwl).1
        = none := by
  rcases hq : get_soil_at_point s.x_mid ((s.y_surface + s.y_base) / 2) g soil_layers gwl
    with ⟨o, b⟩
  simp only [swedishSlice, hq]
  cases o <;> simp

/-- Increasing the seismic coefficient shifts a processed slice's driving
contribution by `(k2 − k1)` times the seismic factor and leaves the
resisting contribution unchanged. -/
lemma swedishSlice_shift {soil_layers : List SoilLayer} {g : SlopeGeometry}
    {gwl : ℝ} {circle : SlipCircle} {k1 k2 : ℝ} (hk1 : 0 ≤ k1) (hk12 : k1 ≤ k2)
    {s : Slice} {p1 : ℝ × ℝ}
    (hp : swedishSlice soil_layers g gwl circle k1 s = some p1) :
    swedishSlice soil_layers g gwl circle k2 s
      = some (p1.1, p1.2 + (k2 - k1) * seismicFactor soil_layers g gwl circle s) := by
  rcases hq : get_soil_at_point s.x_mid ((s.y_surface + s.y_base) / 2) g soil_layers gwl
    with ⟨o, b⟩
  simp only [swedishSlice, seismicFactor, hq] at hp ⊢
  cases o with
  | none => cases hp
  | some soil =>
    simp only [Option.some.injEq] at hp
    subst hp
    simp only [Option.some.injEq, Prod.mk.injEq, true_and]
    by_cases h2 : k2 > 0
    · rw [if_pos h2]
      by_cases h1 : k1 > 0
      · rw [if_pos h1]; ring
      · have hz : k1 = 0 := le_antisymm (le_of_not_lt h1) hk1
        rw [if_neg h1, hz]; ring
    · have hz2 : k2 = 0 := le_antisymm (le_of_not_lt h2) (hk1.trans hk12)
      have hz1 : k1 = 0 := le_antisymm (by linarith) hk1
      subst hz1
      subst hz2
      norm_num

/-- Sum comparison for the Swedish accumulators under a seismic increase:
resisting sums agree, driving sums are monotone. -/
lemma swedishSums_seismic_mono {soil_layers : List SoilLayer} {g : SlopeGeometry}
    {gwl : ℝ} {circle : SlipCircle} {k1 k2 : ℝ} (hk1 : 0 ≤ k1) (hk12 : k1 ≤ k2) :
    ∀ slices : List Slice,
      (∀ s ∈ slices, 0 ≤ seismicFactor soil_layers g gwl circle s) →
      (∀ p ∈ swedishPairs slices soil_layers g gwl circle k1, 0 ≤ p.2) →
      swedishResistingSum slices soil_layers g gwl circle k2
          = swedishResistingSum slices soil_layers g gwl circle k1 ∧
        swedishDrivingSum slices soil_layers g gwl circle k1
          ≤ swedishDrivingSum slices soil_layers g gwl circle k2 := by
  intro slices
  induction slices with
  | nil => intro _ _; simp [swedishResistingSum, swedishDrivingSum, swedishPairs]
  | cons s rest ih =>
    intro hF hT
    rcases hc : swedishSlice soil_layers g gwl circle k1 s with _ | p1
    · have hc2 : swedishSlice soil_layers g gwl circle k2 s = none := by
        rw [swedishSlice_none_iff] at hc ⊢
        exact hc
      have hmem : swedishPairs (s :: rest) soil_layers g gwl circle k1
          = swedishPairs rest soil_layers g gwl circle k1 := by
        simp [swedishPairs, List.filterMap_cons, hc]
      have hmem2 : swedishPairs (s :: rest) soil_layers g gwl circle k2
          = swedishPairs rest soil_layers g gwl circle k2 := by
        simp [swedishPairs, List.filterMap_cons, hc2]
      obtain ⟨ihR, ihD⟩ := ih (fun t ht => hF t (List.mem_cons_of_mem s ht))
        (fun p hp => hT p (by rw [hmem]; exact hp))
      constructor
      · rw [show swedishResistingSum (s :: rest) soil_layers g gwl circle k2
            = swedishResistingSum rest soil_layers g gwl circle k2 by
              simp only [swedishResistingSum, hmem2],
          show swedishResistingSum (s :: rest) soil_layers g gwl circle k1
            = swedishResistingSum rest soil_layers g gwl circle k1 by
              simp only [swedishResistingSum, hmem]]
        exact ihR
      · rw [show swedishDrivingSum (s :: rest) soil_layers g gwl circle k2
            = swedishDrivingSum rest soil_layers g gwl circle k2 by
              simp only [swedishDrivingSum, hmem2],
          show swedishDrivingSum (s :: rest) soil_layers g gwl circle k1
            = swedishDrivingSum rest soil_layers g gwl circle k1 by
              simp only [swedishDrivingSum, hmem]]
        exact ihD
    · have hc2 := swedishSlice_shift hk1 hk12 hc
      have hmem : swedishPairs (s :: rest) soil_layers g gwl circle k1
          = p1 :: swedishPairs rest soil_layers g gwl circle k1 := by
        simp [swedishPairs, List.filterMap_cons, hc]
      have hmem2 : swedishPairs (s :: rest) soil_layers g gwl circle k2
          = (p1.1, p1.2 + (k2 - k1) * seismicFactor soil_layers g gwl circle s)
              :: swedishPairs rest soil_layers g gwl circle k2 := by
        simp [swedishPairs, List.filterMap_cons, hc2]
      have hp1 : 0 ≤ p1.2 := hT p1 (by rw [hmem]; exact List.mem_cons_self p1 _)
      have hFs : 0 ≤ seismicFactor soil_layers g gwl circle s :=
        hF s (List.mem_cons_self s rest)
      have hshift : 0 ≤ (k2 - k1) * seismicFactor soil_layers g gwl circle s :=
        mul_nonneg (by linarith) hFs
      obtain ⟨ihR, ihD⟩ := ih (fun t ht => hF t (List.mem_cons_of_mem s ht))
        (fun p hp => hT p (by rw [hmem]; exact List.mem_cons_of_mem p1 hp))
      have hR1 : swedishResistingSum (s :: rest) soil_layers g gwl circle k1
          = p1.1 + swedishResistingSum rest soil_layers g gwl circle k1 := by
        simp only [swedishResistingSum, hmem, List.map_cons, List.sum_cons]
      have hR2 : swedishResistingSum (s :: rest) soil_layers g gwl circle k2
          = p1.1 + swedishResistingSum rest soil_layers g gwl circle k2 := by
        simp only [swedishResistingSum, hmem2, List.map_cons, List.sum_cons]
      have hD1 : swedishDrivingSum (s :: rest) soil_layers g gwl circle k1
          = |p1.2| + swedishDrivingSum rest soil_layers g gwl circle k1 := by
        simp only [swedishDrivingSum, hmem, List.map_cons, List.sum_cons,
          drivingContrib_eq_abs]
      have hD2 : swedishDrivingSum (s :: rest) soil_layers g gwl circle k2
          = |p1.2 + (k2 - k1) * seismicFactor soil_layers g gwl circle s|
              + swedishDrivingSum rest soil_layers g gwl circle k2 := by
        simp only [swedishDrivingSum, hmem2, List.map_cons, List.sum_cons,
          drivingContrib_eq_abs]
      have habs : |p1.2| ≤ |p1.2 + (k2 - k1) * seismicFactor soil_layers g gwl circle s| := by
        rw [abs_of_nonneg hp1, abs_of_nonneg (by linarith)]
        linarith
      exact ⟨by rw [hR1, hR2, ihR], by rw [hD1, hD2]; linarith⟩

/-- The driving accumulator of `swedish_method` is a sum of absolute values,
hence nonnegative. -/
lemma swedishDrivingSum_nonneg (slices : List Slice) (soil_layers : List SoilLayer)
    (g : SlopeGeometry) (gwl : ℝ) (circle : SlipCircle) (k : ℝ) :
    0 ≤ swedishDrivingSum slices soil_layers g gwl circle k := by
  apply List.sum_nonneg
  intro x hx
  rcases List.mem_map.mp hx with ⟨p, _, rfl⟩
  rw [drivingContrib_eq_abs]
  exact abs_nonneg _

/-- The factor of safety of `swedish_method` in terms of the accumulators. -/
lemma swedish_fs_eq (slices : List Slice) (soil_layers : List SoilLayer)
    (g : SlopeGeometry) (gwl : ℝ) (circle : SlipCircle) (k : ℝ) :
    (swedish_method slices soil_layers g gwl circle k).fs
      = if |swedishDrivingSum slices soil_layers g gwl circle k| < 0.001 then 999
        else swedishResistingSum slices soil_layers g gwl circle k
          / |swedishDrivingSum slices soil_layers g gwl circle k| := rfl

/-- C2 (amended, for `swedish_method`): increasing the seismic coefficient
`0 ≤ k1 ≤ k2` never increases the factor of safety, provided every slice has
a nonnegative seismic moment factor `W·(y_center − y_mid)/R`, every per-slice
driving contribution at `k1` is already nonnegative, the driving sum at `k1`
is at least `0.001` (no sentinel) and the resisting sum is nonnegative. -/
theorem C2_seismic_monotone (slices : List Slice) (soil_layers : List SoilLayer)
    (g : SlopeGeometry) (gwl : ℝ) (circle : SlipCircle) (k1 k2 : ℝ)
    (hk1 : 0 ≤ k1) (hk12 : k1 ≤ k2)
    (hF : ∀ s ∈ slices, 0 ≤ seismicFactor soil_layers g gwl circle s)
    (hT : ∀ p ∈ swedishPairs slices soil_layers g gwl circle k1, 0 ≤ p.2)
    (hden : 0.001 ≤ swedishDrivingSum slices soil_layers g gwl circle k1)
    (hres : 0 ≤ swedishResistingSum slices soil_layers g gwl circle k1) :
    (swedish_method slices soil_layers g gwl circle k2).fs
      ≤ (swedish_method slices soil_layers g gwl circle k1).fs := by
  obtain ⟨hR, hD⟩ := swedishSums_seismic_mono hk1 hk12 slices hF hT
  have hd1 : |swedishDrivingSum slices soil_layers g gwl circle k1|
      = swedishDrivingSum slices soil_layers g gwl circle k1 :=
    abs_of_nonneg (swedishDrivingSum_nonneg _ _ _ _ _ _)
  have hd2 : |swedishDrivingSum slices soil_layers g gwl circle k2|
      = swedishDrivingSum slices soil_layers g gwl circle k2 :=
    abs_of_nonneg (swedishDrivingSum_nonneg _ _ _ _ _ _)
  rw [swedish_fs_eq, swedish_fs_eq, hd1, hd2, hR,
    if_neg (by linarith), if_neg (by linarith)]
  rw [div_le_div_iff (by linarith) (by linarith)]
  nlinarith

lemma m_alpha_safe_45 : m_alpha_safe (4 / 5) = 4 / 5 := by
  unfold m_alpha_safe
  rw [if_neg (by rw [abs_of_pos (by norm_num : (0:ℝ) < 4 / 5)]; norm_num)]

/-- The Bishop iteration is constant on the single back-tilted slice with
seismic coefficient `0` (value `25/24`). -/
lemma bishopStep_cx0 : ∀ fs, bishopStep [flatSlice (-2) 1 (-Real.arcsin (3 / 5))]
    [clayLayer 10] testGeo (-100) testCircle 0 fs = 25 / 24 := by
  intro fs
  have hb := bishopSlice_flat 10 (-2) 1 (-Real.arcsin (3 / 5)) 0 fs testCircle (by norm_num)
  simp only [bishopStep, List.filterMap_cons, List.filterMap_nil, hb,
    List.map_cons, List.map_nil, List.sum_cons, List.sum_nil]
  norm_num [Real.cos_neg, cos_asin35, m_alpha_safe_45, Real.sin_neg, sin_asin35]

/-- The Bishop iteration is constant on the single back-tilted slice with
seismic coefficient `1/4` (value `25/14`: the seismic term cancels part of
the negative driving force). -/
lemma bishopStep_cx14 : ∀ fs, bishopStep [flatSlice (-2) 1 (-Real.arcsin (3 / 5))]
    [clayLayer 10] testGeo (-100) testCircle (1 / 4) fs = 25 / 14 := by
  intro fs
  have hb := bishopSlice_flat 10 (-2) 1 (-Real.arcsin (3 / 5)) (1 / 4) fs testCircle
    (by norm_num)
  simp only [bishopStep, List.filterMap_cons, List.filterMap_nil, hb,
    List.map_cons, List.map_nil, List.sum_cons, List.sum_nil]
  norm_num [Real.cos_neg, cos_asin35, m_alpha_safe_45, Real.sin_neg, sin_asin35,
    testCircle]

/-- C2 (counterexample): a single slice tilted against the slip direction
(`α = −arcsin (3/5)`, driving force `−12`).  Raising the seismic coefficient
from `0` to `1/4` adds `+5` to the driving force, shrinking its absolute
value from `12` to `7`, so the factor of safety of both methods **increases**
from `25/24` to `25/14`. -/
theorem C2_counterexample :
    (0 : ℝ) ≤ 1 / 4 ∧
    (swedish_method [flatSlice (-2) 1 (-Real.arcsin (3 / 5))] [clayLayer 10] testGeo
        (-100) testCircle 0).fs
      < (swedish_method [flatSlice (-2) 1 (-Real.arcsin (3 / 5))] [clayLayer 10] testGeo
        (-100) testCircle (1 / 4)).fs ∧
    (bishop_simplified [flatSlice (-2) 1 (-Real.arcsin (3 / 5))] [clayLayer 10] testGeo
        (-100) testCircle 0 100 0.001).fs
      < (bishop_simplified [flatSlice (-2) 1 (-Real.arcsin (3 / 5))] [clayLayer 10] testGeo
        (-100) testCircle (1 / 4) 100 0.001).fs := by
  have hB14 : swedishSlice [clayLayer 10] testGeo (-100) testCircle (1 / 4)
      (flatSlice (-2) 1 (-Real.arcsin (3 / 5))) = some (12.5, -7) := by
    rw [swedishSlice_flat 10 (-2) 1 (-Real.arcsin (3 / 5)) (1 / 4) testCircle (by norm_num)]
    norm_num [Real.sin_neg, Real.cos_neg, sin_asin35, cos_asin35, testCircle]
  refine ⟨by norm_num, ?_, ?_⟩
  · have h0 : (swedish_method [flatSlice (-2) 1 (-Real.arcsin (3 / 5))] [clayLayer 10]
        testGeo (-100) testCircle 0).fs = 25 / 24 := by
      simp only [swedish_method, List.filterMap_cons, List.filterMap_nil,
        swedishSlice_cxB, List.map_cons, List.map_nil, List.sum_cons, List.sum_nil]
      norm_num
    have h14 : (swedish_method [flatSlice (-2) 1 (-Real.arcsin (3 / 5))] [clayLayer 10]
        testGeo (-100) testCircle (1 / 4)).fs = 25 / 14 := by
      simp only [swedish_method, List.filterMap_cons, List.filterMap_nil,
        hB14, List.map_cons, List.map_nil, List.sum_cons, List.sum_nil]
      norm_num
    rw [h0, h14]
    norm_num
  · have h0 : (bishop_simplified [flatSlice (-2) 1 (-Real.arcsin (3 / 5))] [clayLayer 10]
        testGeo (-100) testCircle 0 100 0.001).fs = 25 / 24 := by
      simp only [bishop_simplified]
      exact bishopLoop_const bishopStep_cx0 (by norm_num) 100 (by norm_num) 1.5
    have h14 : (bishop_simplified [flatSlice (-2) 1 (-Real.arcsin (3 / 5))] [clayLayer 10]
        testGeo (-100) testCircle (1 / 4) 100 0.001).fs = 25 / 14 := by
      simp only [bishop_simplified]
      exact bishopLoop_const bishopStep_cx14 (by norm_num) 100 (by norm_num) 1.5
    rw [h0, h14]
    norm_num

lemma swedishSlice_w1 : swedishSlice [clayLayer 10] testGeo (-100) testCircle (1 / 10)
    (flatSlice (-1) 1 0) = some (10, 2) := by
  rw [swedishSlice_flat 10 (-1) 1 0 (1 / 10) testCircle (by norm_num)]
  norm_num [Real.sin_zero, Real.cos_zero, testCircle]

lemma seismicFactor_w1 : seismicFactor [clayLayer 10] testGeo (-100) testCircle
    (flatSlice (-1) 1 0) = 20 := by
  have hsoil := soil_at_clay 10 (-1) ((0 + 0) / 2) (by norm_num) (by norm_num) (by norm_num)
  simp only [seismicFactor, flatSlice]
  rw [hsoil]
  norm_num [testCircle, clayLayer]

/-- Witness for the amended C2 at a concrete uphill slice, `k` from `1/10`
to `1/5`. -/
theorem C2_seismic_monotone_witness :
    (0 : ℝ) ≤ 1 / 10 ∧ (1 / 10 : ℝ) ≤ 1 / 5 ∧
    (swedish_method [flatSlice (-1) 1 0] [clayLayer 10] testGeo (-100) testCircle
        (1 / 5)).fs
      ≤ (swedish_method [flatSlice (-1) 1 0] [clayLayer 10] testGeo (-100) testCircle
        (1 / 10)).fs :=
  ⟨by norm_num, by norm_num,
   C2_seismic_monotone [flatSlice (-1) 1 0] [clayLayer 10] testGeo (-100) testCircle
     (1 / 10) (1 / 5) (by norm_num) (by norm_num)
     (by
       intro s hs
       simp only [List.mem_singleton] at hs
       subst hs
       rw [seismicFactor_w1]
       norm_num)
     (by
       intro p hp
       simp only [swedishPairs, List.filterMap_cons, List.filterMap_nil,
         swedishSlice_w1] at hp
       simp only [List.mem_singleton] at hp
       subst hp
       norm_num)
     (by
       simp only [swedishDrivingSum, swedishPairs, List.filterMap_cons,
         List.filterMap_nil, swedishSlice_w1, List.map_cons, List.map_nil,
         List.sum_cons, List.sum_nil]
       norm_num)
     (by
       simp only [swedishResistingSum, swedishPairs, List.filterMap_cons,
         List.filterMap_nil, swedishSlice_w1, List.map_cons, List.map_nil,
         List.sum_cons, List.sum_nil]
       norm_num)⟩

/-! ### C5: cohesion monotonicity -/

/-- Pointwise layer relation of claim C5: the cohesion does not decrease and
every other field is unchanged. -/
def cohesionIncrease (L L2 : SoilLayer) : Prop :=
  L.cohesion ≤ L2.cohesion ∧ L2 = { L with cohesion := L2.cohesion }

lemma cohesionIncrease.gamma_eq {L L2 : SoilLayer} (h : cohesionIncrease L L2) :
    L2.gamma = L.gamma := by rw [h.2]

lemma cohesionIncrease.gamma_sat_eq {L L2 : SoilLayer} (h : cohesionIncrease L L2) :
    L2.gamma_sat = L.gamma_sat := by rw [h.2]

lemma cohesionIncrease.phi_eq {L L2 : SoilLayer} (h : cohesionIncrease L L2) :
    L2.phi = L.phi := by rw [h.2]

lemma cohesionIncrease.thickness_eq {L L2 : SoilLayer} (h : cohesionIncrease L L2) :
    L2.thickness = L.thickness := by rw [h.2]

/-- The layer walk returns corresponding layers on two pointwise-related
stacks (thicknesses agree, so the same branch is taken at every step). -/
lemma findLayerAux_congr {l1 l2 : List SoilLayer}
    (h : List.Forall₂ cohesionIncrease l1 l2) :
    ∀ d c : ℝ, (findLayerAux d c l1 = none ∧ findLayerAux d c l2 = none) ∨
      (∃ L L2, cohesionIncrease L L2 ∧
        findLayerAux d c l1 = some L ∧ findLayerAux d c l2 = some L2) := by
  induction h with
  | nil => intro d c; left; exact ⟨rfl, rfl⟩
  | @cons a b l1t l2t hrel hrest ih =>
    intro d c
    unfold findLayerAux
    rw [hrel.thickness_eq]
    split_ifs with hd
    · right; exact ⟨a, b, hrel, rfl, rfl⟩
    · exact ih d (c + a.thickness)

/-- Last elements of two pointwise-related stacks correspond. -/
lemma getLast?_congr {l1 l2 : List SoilLayer}
    (h : List.Forall₂ cohesionIncrease l1 l2) :
    (l1.getLast? = none ∧ l2.getLast? = none) ∨
      (∃ L L2, cohesionIncrease L L2 ∧
        l1.getLast? = some L ∧ l2.getLast? = some L2) := by
  induction h with
  | nil => left; exact ⟨rfl, rfl⟩
  | @cons a b l1t l2t hrel hrest ih =>
    cases hrest with
    | nil => right; exact ⟨a, b, hrel, rfl, rfl⟩
    | @cons a2 b2 l1t2 l2t2 hrel2 hrest2 =>
      rw [List.getLast?_cons_cons, List.getLast?_cons_cons]
      exact ih

/-- The soil query returns corresponding layers (and identical submergence
flags) on two pointwise-related stacks. -/
lemma get_soil_at_point_congr {l1 l2 : List SoilLayer}
    (h : List.Forall₂ cohesionIncrease l1 l2) (x y : ℝ) (g : SlopeGeometry) (gwl : ℝ) :
    (get_soil_at_point x y g l1 gwl = (none, false) ∧
      get_soil_at_point x y g l2 gwl = (none, false)) ∨
    (∃ L L2 b, cohesionIncrease L L2 ∧
      get_soil_at_point x y g l1 gwl = (some L, b) ∧
      get_soil_at_point x y g l2 gwl = (some L2, b)) := by
  simp only [get_soil_at_point]
  split_ifs with h1
  · left; exact ⟨rfl, rfl⟩
  · rcases findLayerAux_congr h (get_slope_surface_y x g - y) 0 with
      ⟨hn1, hn2⟩ | ⟨L, L2, hrel, hs1, hs2⟩
    · rw [hn1, hn2]
      rcases getLast?_congr h with ⟨hl1, hl2⟩ | ⟨L, L2, hrel, hl1, hl2⟩
      · rw [hl1, hl2]; left; exact ⟨rfl, rfl⟩
      · rw [hl1, hl2]; right; exact ⟨L, L2, decide (y < gwl), hrel, rfl, rfl⟩
    · rw [hs1, hs2]; right; exact ⟨L, L2, decide (y < gwl), hrel, rfl, rfl⟩

/-- Raising cohesions pointwise leaves the per-slice driving contribution
unchanged and does not decrease the resisting contribution, provided the
slice's base length `width / cos α` is nonnegative. -/
lemma swedishSlice_cohesion_mono {l1 l2 : List SoilLayer}
    (h : List.Forall₂ cohesionIncrease l1 l2) (g : SlopeGeometry) (gwl : ℝ)
    (circle : SlipCircle) (k : ℝ) {s : Slice} (hl : 0 ≤ s.width / Real.cos s.alpha) :
    (swedishSlice l1 g gwl circle k s = none ∧ swedishSlice l2 g gwl circle k s = none) ∨
    (∃ p q : ℝ × ℝ, swedishSlice l1 g gwl circle k s = some p ∧
      swedishSlice l2 g gwl circle k s = some q ∧ p.1 ≤ q.1 ∧ p.2 = q.2) := by
  rcases get_soil_at_point_congr h s.x_mid ((s.y_surface + s.y_base) / 2) g gwl with
    ⟨h1, h2⟩ | ⟨L, L2, b, hrel, h1, h2⟩
  · left
    constructor <;> simp only [swedishSlice, h1, h2]
  · rcases hp : swedishSlice l1 g gwl circle k s with _ | p
    · rw [swedishSlice_none_iff, h1] at hp
      simp at hp
    · rcases hq2 : swedishSlice l2 g gwl circle k s with _ | q
      · rw [swedishSlice_none_iff, h2] at hq2
        simp at hq2
      · have hp2 := hp
        simp only [swedishSlice, h1, Option.some.injEq] at hp2
        have hq3 := hq2
        simp only [swedishSlice, h2, Option.some.injEq] at hq3
        right
        refine ⟨p, q, rfl, rfl, ?_, ?_⟩
        · rw [← hp2, ← hq3]
          dsimp only
          rw [hrel.gamma_eq, hrel.gamma_sat_eq, hrel.phi_eq]
          have hc := mul_le_mul_of_nonneg_right hrel.1 hl
          linarith
        · rw [← hp2, ← hq3]
          dsimp only
          rw [hrel.gamma_eq, hrel.gamma_sat_eq]

/-- Sum comparison for the Swedish accumulators under a pointwise cohesion
increase. -/
lemma swedishSums_cohesion_mono {l1 l2 : List SoilLayer}
    (h : List.Forall₂ cohesionIncrease l1 l2) (g : SlopeGeometry) (gwl : ℝ)
    (circle : SlipCircle) (k : ℝ) :
    ∀ slices : List Slice, (∀ s ∈ slices, 0 ≤ s.width / Real.cos s.alpha) →
      swedishResistingSum slices l1 g gwl circle k
          ≤ swedishResistingSum slices l2 g gwl circle k ∧
        swedishDrivingSum slices l1 g gwl circle k
          = swedishDrivingSum slices l2 g gwl circle k := by
  intro slices
  induction slices with
  | nil => intro _; simp [swedishResistingSum, swedishDrivingSum, swedishPairs]
  | cons s rest ih =>
    intro hl
    obtain ⟨ihR, ihD⟩ := ih (fun t ht => hl t (List.mem_cons_of_mem s ht))
    rcases swedishSlice_cohesion_mono h g gwl circle k (hl s (List.mem_cons_self s rest))
      with ⟨h1, h2⟩ | ⟨p, q, h1, h2, hpq1, hpq2⟩
    · have e1 : swedishPairs (s :: rest) l1 g gwl circle k
          = swedishPairs rest l1 g gwl circle k := by
        simp [swedishPairs, List.filterMap_cons, h1]
      have e2 : swedishPairs (s :: rest) l2 g gwl circle k
          = swedishPairs rest l2 g gwl circle k := by
        simp [swedishPairs, List.filterMap_cons, h2]
      constructor
      · simp only [swedishResistingSum, e1, e2]; exact ihR
      · simp only [swedishDrivingSum, e1, e2]; exact ihD
    · have e1 : swedishPairs (s :: rest) l1 g gwl circle k
          = p :: swedishPairs rest l1 g gwl circle k := by
        simp [swedishPairs, List.filterMap_cons, h1]
      have e2 : swedishPairs (s :: rest) l2 g gwl circle k
          = q :: swedishPairs rest l2 g gwl circle k := by
        simp [swedishPairs, List.filterMap_cons, h2]
      constructor
      · simp only [swedishResistingSum, e1, e2, List.map_cons, List.sum_cons]
        have ihR2 : ((swedishPairs rest l1 g gwl circle k).map Prod.fst).sum
            ≤ ((swedishPairs rest l2 g gwl circle k).map Prod.fst).sum := ihR
        linarith
      · simp only [swedishDrivingSum, e1, e2, List.map_cons, List.sum_cons, hpq2]
        have ihD2 : ((swedishPairs rest l1 g gwl circle k).map
              fun p => if p.2 > 0 then |p.2| else -p.2).sum
            = ((swedishPairs rest l2 g gwl circle k).map
              fun p => if p.2 > 0 then |p.2| else -p.2).sum := ihD
        rw [ihD2]

/-- C5 (amended, for `swedish_method`): pointwise increasing every layer's
cohesion (all other fields unchanged) never decreases the Swedish factor of
safety, provided every slice's base length `width / cos α` is nonnegative. -/
theorem C5_cohesion_monotone (slices : List Slice) (l1 l2 : List SoilLayer)
    (g : SlopeGeometry) (gwl : ℝ) (circle : SlipCircle) (k : ℝ)
    (h : List.Forall₂ cohesionIncrease l1 l2)
    (hl : ∀ s ∈ slices, 0 ≤ s.width / Real.cos s.alpha) :
    (swedish_method slices l1 g gwl circle k).fs
      ≤ (swedish_method slices l2 g gwl circle k).fs := by
  obtain ⟨hR, hD⟩ := swedishSums_cohesion_mono h g gwl circle k slices hl
  rw [swedish_fs_eq, swedish_fs_eq, hD]
  split_ifs with hden
  · exact le_refl _
  · have hpos : 0 < |swedishDrivingSum slices l2 g gwl circle k| := by
      have := not_lt.mp hden
      linarith
    exact div_le_div_of_le_of_nonneg hR (le_of_lt hpos)

lemma forall₂_clay_10_20 :
    List.Forall₂ cohesionIncrease [clayLayer 10] [clayLayer 20] := by
  refine List.Forall₂.cons ?_ List.Forall₂.nil
  constructor
  · norm_num [clayLayer]
  · norm_num [clayLayer]

/-- The Bishop iteration is constant on the negative-width slice with the
cohesion-10 layer. -/
lemma bishopStep_negw10 : ∀ fs, bishopStep [flatSlice (-1) (-1) (Real.arcsin (3 / 5))]
    [clayLayer 10] testGeo (-100) testCircle 0 fs = -(25 / 24) := by
  intro fs
  have hb := bishopSlice_flat 10 (-1) (-1) (Real.arcsin (3 / 5)) 0 fs testCircle
    (by norm_num)
  simp only [bishopStep, List.filterMap_cons, List.filterMap_nil, hb,
    List.map_cons, List.map_nil, List.sum_cons, List.sum_nil]
  norm_num [cos_asin35, m_alpha_safe_45, sin_asin35]

/-- The Bishop iteration is constant on the negative-width slice with the
cohesion-20 layer. -/
lemma bishopStep_negw20 : ∀ fs, bishopStep [flatSlice (-1) (-1) (Real.arcsin (3 / 5))]
    [clayLayer 20] testGeo (-100) testCircle 0 fs = -(25 / 12) := by
  intro fs
  have hb := bishopSlice_flat 20 (-1) (-1) (Real.arcsin (3 / 5)) 0 fs testCircle
    (by norm_num)
  simp only [bishopStep, List.filterMap_cons, List.filterMap_nil, hb,
    List.map_cons, List.map_nil, List.sum_cons, List.sum_nil]
  norm_num [cos_asin35, m_alpha_safe_45, sin_asin35]

/-- C5 (counterexample): a slice of width `−1` has base length
`l = width / cos α < 0`, so raising the cohesion of every layer from 10 to 20
(all other fields unchanged) **strictly decreases** the factor of safety of
both methods (from `−25/24` to `−25/12`). -/
theorem C5_counterexample :
    List.Forall₂ cohesionIncrease [clayLayer 10] [clayLayer 20] ∧
    (swedish_method [flatSlice (-1) (-1) (Real.arcsin (3 / 5))] [clayLayer 20] testGeo
        (-100) testCircle 0).fs
      < (swedish_method [flatSlice (-1) (-1) (Real.arcsin (3 / 5))] [clayLayer 10] testGeo
        (-100) testCircle 0).fs ∧
    (bishop_simplified [flatSlice (-1) (-1) (Real.arcsin (3 / 5))] [clayLayer 20] testGeo
        (-100) testCircle 0 100 0.001).fs
      < (bishop_simplified [flatSlice (-1) (-1) (Real.arcsin (3 / 5))] [clayLayer 10] testGeo
        (-100) testCircle 0 100 0.001).fs := by
  have hs10 : swedishSlice [clayLayer 10] testGeo (-100) testCircle 0
      (flatSlice (-1) (-1) (Real.arcsin (3 / 5))) = some (-12.5, -12) := by
    rw [swedishSlice_flat 10 (-1) (-1) (Real.arcsin (3 / 5)) 0 testCircle (by norm_num)]
    norm_num [sin_asin35, cos_asin35]
  have hs20 : swedishSlice [clayLayer 20] testGeo (-100) testCircle 0
      (flatSlice (-1) (-1) (Real.arcsin (3 / 5))) = some (-25, -12) := by
    rw [swedishSlice_flat 20 (-1) (-1) (Real.arcsin (3 / 5)) 0 testCircle (by norm_num)]
    norm_num [sin_asin35, cos_asin35]
  refine ⟨forall₂_clay_10_20, ?_, ?_⟩
  · have h10 : (swedish_method [flatSlice (-1) (-1) (Real.arcsin (3 / 5))] [clayLayer 10]
        testGeo (-100) testCircle 0).fs = -(25 / 24) := by
      simp only [swedish_method, List.filterMap_cons, List.filterMap_nil, hs10,
        List.map_cons, List.map_nil, List.sum_cons, List.sum_nil]
      norm_num
    have h20 : (swedish_method [flatSlice (-1) (-1) (Real.arcsin (3 / 5))] [clayLayer 20]
        testGeo (-100) testCircle 0).fs = -(25 / 12) := by
      simp only [swedish_method, List.filterMap_cons, List.filterMap_nil, hs20,
        List.map_cons, List.map_nil, List.sum_cons, List.sum_nil]
      norm_num
    rw [h10, h20]
    norm_num
  · have h10 : (bishop_simplified [flatSlice (-1) (-1) (Real.arcsin (3 / 5))] [clayLayer 10]
        testGeo (-100) testCircle 0 100 0.001).fs = -(25 / 24) := by
      simp only [bishop_simplified]
      exact bishopLoop_const bishopStep_negw10 (by norm_num) 100 (by norm_num) 1.5
    have h20 : (bishop_simplified [flatSlice (-1) (-1) (Real.arcsin (3 / 5))] [clayLayer 20]
        testGeo (-100) testCircle 0 100 0.001).fs = -(25 / 12) := by
      simp only [bishop_simplified]
      exact bishopLoop_const bishopStep_negw20 (by norm_num) 100 (by norm_num) 1.5
    rw [h10, h20]
    norm_num

/-- Witness for the amended C5 at a concrete flat slice of positive width. -/
theorem C5_cohesion_monotone_witness :
    List.Forall₂ cohesionIncrease [clayLayer 10] [clayLayer 20] ∧
    (swedish_method [flatSlice (-1) 1 0] [clayLayer 10] testGeo (-100) testCircle 0).fs
      ≤ (swedish_method [flatSlice (-1) 1 0] [clayLayer 20] testGeo (-100) testCircle 0).fs :=
  ⟨forall₂_clay_10_20,
   C5_cohesion_monotone [flatSlice (-1) 1 0] [clayLayer 10] [clayLayer 20] testGeo
     (-100) testCircle 0 forall₂_clay_10_20
     (by
       intro s hs
       simp only [List.mem_singleton] at hs
       subst hs
       norm_num [flatSlice, Real.cos_zero])⟩

/-! ### C3: termination and convergence reporting of Bishop's iteration -/

/-- Full characterization of the convergence loop: the iteration count never
exceeds the fuel; the converged flag holds exactly when some iteration within
the fuel meets the tolerance; on convergence the returned value is the
iterate at the reported count, whose step met the tolerance; on exhaustion
the returned value is the final iterate and the count is the cap. -/
lemma bishopLoop_spec (step : ℝ → ℝ) (tol : ℝ) :
    ∀ (fuel : ℕ) (fs0 : ℝ),
      (bishopLoop step tol fuel fs0).2.2 ≤ fuel ∧
      ((bishopLoop step tol fuel fs0).2.1 = true ↔
        ∃ n < fuel, |step (step^[n] fs0) - step^[n] fs0| < tol) ∧
      ((bishopLoop step tol fuel fs0).2.1 = true →
        1 ≤ (bishopLoop step tol fuel fs0).2.2 ∧
        (bishopLoop step tol fuel fs0).1
          = step^[(bishopLoop step tol fuel fs0).2.2] fs0 ∧
        |step^[(bishopLoop step tol fuel fs0).2.2] fs0
          - step^[(bishopLoop step tol fuel fs0).2.2 - 1] fs0| < tol) ∧
      ((bishopLoop step tol fuel fs0).2.1 = false →
        (bishopLoop step tol fuel fs0).1 = step^[fuel] fs0 ∧
        (bishopLoop step tol fuel fs0).2.2 = fuel) := by
  intro fuel
  induction fuel with
  | zero =>
    intro fs0
    refine ⟨le_refl 0, ?_, ?_, ?_⟩
    · simp [bishopLoop]
    · intro h
      exact absurd h (by simp [bishopLoop])
    · intro _
      exact ⟨rfl, rfl⟩
  | succ fuel ih =>
    intro fs0
    by_cases hconv : |step fs0 - fs0| < tol
    · have hl : bishopLoop step tol (fuel + 1) fs0 = (step fs0, true, 1) := by
        simp only [bishopLoop, if_pos hconv]
      rw [hl]
      refine ⟨Nat.succ_le_succ (Nat.zero_le fuel), ?_, ?_, ?_⟩
      · constructor
        · intro _
          exact ⟨0, Nat.succ_pos fuel, by simpa using hconv⟩
        · intro _
          rfl
      · intro _
        exact ⟨le_refl 1, rfl, by simpa using hconv⟩
      · intro h
        cases h
    · have hl : bishopLoop step tol (fuel + 1) fs0
          = ((bishopLoop step tol fuel (step fs0)).1,
             (bishopLoop step tol fuel (step fs0)).2.1,
             (bishopLoop step tol fuel (step fs0)).2.2 + 1) := by
        simp only [bishopLoop, if_neg hconv]
      obtain ⟨ih1, ih2, ih3, ih4⟩ := ih (step fs0)
      rw [hl]
      dsimp only
      have hiter : ∀ n, step^[n] (step fs0) = step^[n + 1] fs0 := by
        intro n
        rw [Function.iterate_succ_apply]
      refine ⟨by omega, ?_, ?_, ?_⟩
      · rw [ih2]
        constructor
        · rintro ⟨n, hn, hlt⟩
          refine ⟨n + 1, by omega, ?_⟩
          rw [← hiter n]
          exact hlt
        · rintro ⟨n, hn, hlt⟩
          cases n with
          | zero => exact absurd (by simpa using hlt) hconv
          | succ m =>
            refine ⟨m, by omega, ?_⟩
            rw [hiter m]
            exact hlt
      · intro hc
        obtain ⟨h1, h2, h3⟩ := ih3 hc
        refine ⟨by omega, ?_, ?_⟩
        · rw [h2, hiter]
        · have e1 : (bishopLoop step tol fuel (step fs0)).2.2 + 1 - 1
              = (bishopLoop step tol fuel (step fs0)).2.2 := by omega
          rw [e1]
          have h3b := h3
          simp only [hiter] at h3b
          have e2 : (bishopLoop step tol fuel (step fs0)).2.2 - 1 + 1
              = (bishopLoop step tol fuel (step fs0)).2.2 := by omega
          rw [e2] at h3b
          exact h3b
      · intro hc
        obtain ⟨h1, h2⟩ := ih4 hc
        refine ⟨?_, by omega⟩
        rw [h1, hiter]

/-- C3: `bishop_simplified` always returns, reporting at most `max_iter`
iterations; `converged = true` exactly when some iteration within the cap
meets the tolerance `|FS_new − FS_old| < tol`, in which case the returned FS
is the iterate at the reported count and that step met the tolerance; on a
cap exit (`converged = false`) the returned FS is the last computed iterate
`step^[max_iter] 1.5` — never discarded — and the count is `max_iter`. -/
theorem C3_bishop_termination (slices : List Slice) (soil_layers : List SoilLayer)
    (g : SlopeGeometry) (gwl : ℝ) (circle : SlipCircle) (seismic_coef : ℝ)
    (max_iter : ℕ) (tol : ℝ) :
    (bishop_simplified slices soil_layers g gwl circle seismic_coef max_iter tol).iterations
        ≤ max_iter ∧
    ((bishop_simplified slices soil_layers g gwl circle seismic_coef max_iter tol).converged
        = true ↔
      ∃ n < max_iter,
        |bishopStep slices soil_layers g gwl circle seismic_coef
            ((bishopStep slices soil_layers g gwl circle seismic_coef)^[n] 1.5)
          - (bishopStep slices soil_layers g gwl circle seismic_coef)^[n] 1.5| < tol) ∧
    ((bishop_simplified slices soil_layers g gwl circle seismic_coef max_iter tol).converged
        = true →
      1 ≤ (bishop_simplified slices soil_layers g gwl circle seismic_coef max_iter
            tol).iterations ∧
      (bishop_simplified slices soil_layers g gwl circle seismic_coef max_iter tol).fs
        = (bishopStep slices soil_layers g gwl circle seismic_coef)^[
            (bishop_simplified slices soil_layers g gwl circle seismic_coef max_iter
              tol).iterations] 1.5 ∧
      |(bishopStep slices soil_layers g gwl circle seismic_coef)^[
          (bishop_simplified slices soil_layers g gwl circle seismic_coef max_iter
            tol).iterations] 1.5
        - (bishopStep slices soil_layers g gwl circle seismic_coef)^[
            (bishop_simplified slices soil_layers g gwl circle seismic_coef max_iter
              tol).iterations - 1] 1.5| < tol) ∧
    ((bishop_simplified slices soil_layers g gwl circle seismic_coef max_iter tol).converged
        = false →
      (bishop_simplified slices soil_layers g gwl circle seismic_coef max_iter tol).fs
        = (bishopStep slices soil_layers g gwl circle seismic_coef)^[max_iter] 1.5 ∧
      (bishop_simplified slices soil_layers g gwl circle seismic_coef max_iter
          tol).iterations = max_iter) :=
  bishopLoop_spec (bishopStep slices soil_layers g gwl circle seismic_coef) tol max_iter 1.5

/-- With no slices, every Bishop iteration yields the sentinel `999`. -/
lemma bishopStep_nil (soil_layers : List SoilLayer) (g : SlopeGeometry) (gwl : ℝ)
    (circle : SlipCircle) (k : ℝ) :
    ∀ fs, bishopStep [] soil_layers g gwl circle k fs = 999 := by
  intro fs
  simp only [bishopStep, List.filterMap_nil, List.map_nil, List.sum_nil]
  norm_num

/-- Concrete evaluation of the loop on the empty slice list: first iterate
`999` misses the tolerance from the initial guess `1.5`, the second one
converges at `999`. -/
lemma bishopLoop_succ_eq (step : ℝ → ℝ) (tol : ℝ) (fuel : ℕ) (fs : ℝ) :
    bishopLoop step tol (fuel + 1) fs
      = if |step fs - fs| < tol then (step fs, true, 1)
        else ((bishopLoop step tol fuel (step fs)).1,
              (bishopLoop step tol fuel (step fs)).2.1,
              (bishopLoop step tol fuel (step fs)).2.2 + 1) := by
  simp only [bishopLoop]

lemma bishopLoop_nil_eval :
    bishopLoop (bishopStep [] [clayLayer 10] testGeo (-100) testCircle 0) 0.001 100 1.5
      = (999, true, 2) := by
  have hstep := bishopStep_nil [clayLayer 10] testGeo (-100) testCircle 0
  rw [show (100 : ℕ) = 99 + 1 from rfl, bishopLoop_succ_eq, hstep]
  rw [if_neg (show ¬ |(999 : ℝ) - 1.5| < 0.001 by
    rw [show (999 : ℝ) - 1.5 = 997.5 by norm_num,
      abs_of_pos (by norm_num : (0 : ℝ) < 997.5)]
    norm_num)]
  rw [show (99 : ℕ) = 98 + 1 from rfl, bishopLoop_succ_eq, hstep]
  rw [if_pos (show |(999 : ℝ) - 999| < 0.001 by
    rw [sub_self, abs_zero]
    norm_num)]

/-- Witness for C3 on the empty slice list: the run converges, and the
convergence conjunct of the theorem applies to it. -/
theorem C3_bishop_termination_witness :
    (bishop_simplified [] [clayLayer 10] testGeo (-100) testCircle 0 100 0.001).converged
        = true ∧
    1 ≤ (bishop_simplified [] [clayLayer 10] testGeo (-100) testCircle 0 100
          0.001).iterations ∧
    (bishop_simplified [] [clayLayer 10] testGeo (-100) testCircle 0 100 0.001).fs
      = (bishopStep [] [clayLayer 10] testGeo (-100) testCircle 0)^[
          (bishop_simplified [] [clayLayer 10] testGeo (-100) testCircle 0 100
            0.001).iterations] 1.5 ∧
    |(bishopStep [] [clayLayer 10] testGeo (-100) testCircle 0)^[
        (bishop_simplified [] [clayLayer 10] testGeo (-100) testCircle 0 100
          0.001).iterations] 1.5
      - (bishopStep [] [clayLayer 10] testGeo (-100) testCircle 0)^[
          (bishop_simplified [] [clayLayer 10] testGeo (-100) testCircle 0 100
            0.001).iterations - 1] 1.5| < 0.001 := by
  have hconv : (bishop_simplified [] [clayLayer 10] testGeo (-100) testCircle 0 100
      0.001).converged = true := by
    simp only [bishop_simplified, bishopLoop_nil_eval]
  have h := C3_bishop_termination [] [clayLayer 10] testGeo (-100) testCircle 0 100 0.001
  exact ⟨hconv, h.2.2.1 hconv⟩

/-! ### C8: the slice discretizer -/

/-- Field contents of any slice produced by the discretizer's loop body. -/
lemma mkSliceAt_some_props {circle : SlipCircle} {g : SlopeGeometry}
    {x_left w : ℝ} {i : ℕ} {s : Slice}
    (h : mkSliceAt circle g x_left w i = some s) :
    s.x_mid = x_left + ((i : ℝ) + 0.5) * w ∧
    s.width = w ∧
    s.y_surface = get_slope_surface_y s.x_mid g ∧
    s.y_base = circle.y_center
      - Real.sqrt (circle.radius ^ 2 - (s.x_mid - circle.x_center) ^ 2) ∧
    s.y_base < s.y_surface ∧
    s.height = s.y_surface - s.y_base ∧
    0 < s.height := by
  simp only [mkSliceAt] at h
  split_ifs at h with h1 h2 h3
  simp only [Option.some.injEq] at h
  subst h
  exact ⟨rfl, rfl, rfl, rfl, not_le.mp h2, rfl, not_le.mp h3⟩

/-- A column whose radicand is nonnegative and whose base lies strictly below
the surface yields a slice at the column midpoint. -/
lemma mkSliceAt_eval (circle : SlipCircle) (g : SlopeGeometry) (xl w : ℝ) (i : ℕ)
    (xm : ℝ) (hxm : xm = xl + ((i : ℝ) + 0.5) * w)
    (rad : ℝ) (hrad : rad = circle.radius ^ 2 - (xm - circle.x_center) ^ 2)
    (h1 : 0 ≤ rad)
    (h2 : circle.y_center - Real.sqrt rad < get_slope_surface_y xm g) :
    ∃ s, mkSliceAt circle g xl w i = some s ∧ s.x_mid = xm := by
  simp only [mkSliceAt]
  rw [← hxm, ← hrad]
  rw [if_neg (not_lt.mpr h1), if_neg (not_le.mpr h2),
    if_neg (not_le.mpr (sub_pos.mpr h2))]
  exact ⟨_, rfl, rfl⟩

/-- C8 (amended): `slice_geometry` returns `[]` when the circle cannot reach
the toe elevation; otherwise it returns at most `N` slices, each of width
`(x_right − x_left)/N`, with base on the circle strictly below its surface
elevation and strictly positive height; the slices are ordered by
**increasing midpoint only when the common column width is positive** (the
amendment: with a negative width — possible when the clamped right end falls
left of the clamped left end — midpoints decrease); and a column is omitted
exactly when its radicand is negative or its base is at or above the
surface. -/
theorem C8_slice_geometry (circle : SlipCircle) (g : SlopeGeometry) (n : ℕ) :
    (circle.radius ^ 2 < (circle.y_center - g.toe_elevation) ^ 2 →
      slice_geometry circle g n = []) ∧
    (slice_geometry circle g n).length ≤ n ∧
    (∀ s ∈ slice_geometry circle g n,
      s.width = sliceWidth circle g n ∧
      s.y_surface = get_slope_surface_y s.x_mid g ∧
      s.y_base = circle.y_center
        - Real.sqrt (circle.radius ^ 2 - (s.x_mid - circle.x_center) ^ 2) ∧
      s.y_base < s.y_surface ∧
      s.height = s.y_surface - s.y_base ∧
      0 < s.height) ∧
    (0 < sliceWidth circle g n →
      (slice_geometry circle g n).Pairwise (fun a b => a.x_mid < b.x_mid)) ∧
    (∀ i : ℕ,
      (mkSliceAt circle g (sliceXLeft circle g) (sliceWidth circle g n) i = none ↔
        circle.radius ^ 2
            - (sliceXLeft circle g + ((i : ℝ) + 0.5) * sliceWidth circle g n
                - circle.x_center) ^ 2 < 0 ∨
          get_slope_surface_y
              (sliceXLeft circle g + ((i : ℝ) + 0.5) * sliceWidth circle g n) g
            ≤ circle.y_center - Real.sqrt (circle.radius ^ 2
              - (sliceXLeft circle g + ((i : ℝ) + 0.5) * sliceWidth circle g n
                - circle.x_center) ^ 2))) := by
  refine ⟨?_, ?_, ?_, ?_, ?_⟩
  · intro h
    simp only [slice_geometry, if_pos h]
  · unfold slice_geometry
    split_ifs with hdeg
    · simp
    · exact le_trans (List.length_filterMap_le _ _) (by simp)
  · intro s hs
    unfold slice_geometry at hs
    split_ifs at hs with hdeg
    · cases hs
    · rcases List.mem_filterMap.mp hs with ⟨i, _, hsome⟩
      obtain ⟨_, hw, hsurf, hbase, hlt, hh, hpos⟩ := mkSliceAt_some_props hsome
      exact ⟨hw, hsurf, hbase, hlt, hh, hpos⟩
  · intro hw
    unfold slice_geometry
    split_ifs with hdeg
    · exact List.Pairwise.nil
    · apply List.Pairwise.filterMap
      · intro i j hij s hs t ht
        obtain ⟨hxi, _, _, _, _, _, _⟩ := mkSliceAt_some_props (Option.mem_def.mp hs)
        obtain ⟨hxj, _, _, _, _, _, _⟩ := mkSliceAt_some_props (Option.mem_def.mp ht)
        rw [hxi, hxj]
        have hij2 : ((i : ℝ) + 0.5) < ((j : ℝ) + 0.5) := by
          have : (i : ℝ) < (j : ℝ) := Nat.cast_lt.mpr hij
          linarith
        nlinarith
      · exact List.pairwise_lt_range n
  · intro i
    simp only [mkSliceAt]
    split_ifs with h1 h2 h3
    · exact iff_of_true rfl (Or.inl h1)
    · exact iff_of_true rfl (Or.inr h2)
    · exact iff_of_true rfl (Or.inr (by linarith [not_lt.mp h1]))
    · refine iff_of_false (by simp) ?_
      rintro (hc | hc)
      · exact h1 hc
      · exact h2 hc

/-- C8 (counterexample): for the circle centred at `(12, −3)` with radius `5`
over the fixture geometry, the clamped span is `[8, 7]` (right end left of
the left end), the column width is `−1/2`, and the two returned slices have
**decreasing** midpoints `7.75 > 7.25` — the list is not ordered by
increasing midpoint. -/
theorem C8_counterexample :
    (slice_geometry ⟨12, -3, 5⟩ testGeo 2).map Slice.x_mid = [7.75, 7.25] ∧
    ¬ ((slice_geometry ⟨12, -3, 5⟩ testGeo 2).map Slice.x_mid).Pairwise (· ≤ ·) := by
  have h16 : Real.sqrt (16 : ℝ) = 4 := sqrt_eq_of_sq (by norm_num) (by norm_num)
  have hxl : sliceXLeft ⟨12, -3, 5⟩ testGeo = 8 := by
    simp only [sliceXLeft, testGeo]
    rw [show ((5 : ℝ) ^ 2 - ((-3 : ℝ) - 0) ^ 2) = 16 by norm_num, h16]
    norm_num [max_def]
  have hw : sliceWidth ⟨12, -3, 5⟩ testGeo 2 = -(1 / 2) := by
    simp only [sliceWidth, sliceXRight]
    rw [hxl]
    simp only [testGeo]
    rw [show ((5 : ℝ) ^ 2 - ((-3 : ℝ) - 0) ^ 2) = 16 by norm_num, h16]
    norm_num [min_def]
  have hsurf0 : get_slope_surface_y 7.75 testGeo = 1 := by
    simp only [get_slope_surface_y, testGeo]
    norm_num
  have hsurf1 : get_slope_surface_y 7.25 testGeo = 1 := by
    simp only [get_slope_surface_y, testGeo]
    norm_num
  obtain ⟨s0, hs0, hx0⟩ := mkSliceAt_eval ⟨12, -3, 5⟩ testGeo 8 (-(1 / 2)) 0 7.75
    (by push_cast; norm_num) 6.9375 (by norm_num) (by norm_num)
    (by
      rw [hsurf0]
      have := Real.sqrt_nonneg (6.9375 : ℝ)
      show (-3 : ℝ) - Real.sqrt 6.9375 < 1
      linarith)
  obtain ⟨s1, hs1, hx1⟩ := mkSliceAt_eval ⟨12, -3, 5⟩ testGeo 8 (-(1 / 2)) 1 7.25
    (by push_cast; norm_num) 2.4375 (by norm_num) (by norm_num)
    (by
      rw [hsurf1]
      have := Real.sqrt_nonneg (2.4375 : ℝ)
      show (-3 : ℝ) - Real.sqrt 2.4375 < 1
      linarith)
  have hmap : (slice_geometry ⟨12, -3, 5⟩ testGeo 2).map Slice.x_mid = [7.75, 7.25] := by
    simp only [slice_geometry]
    rw [if_neg (by norm_num [testGeo] : ¬ ((⟨12, -3, 5⟩ : SlipCircle).radius ^ 2
      < ((⟨12, -3, 5⟩ : SlipCircle).y_center - testGeo.toe_elevation) ^ 2))]
    rw [hxl, hw, show List.range 2 = [0, 1] from rfl]
    simp only [List.filterMap_cons, List.filterMap_nil, hs0, hs1,
      List.map_cons, List.map_nil]
    rw [hx0, hx1]
  refine ⟨hmap, ?_⟩
  rw [hmap]
  intro hp
  rcases List.pairwise_cons.mp hp with ⟨hle, _⟩
  have := hle 7.25 (List.mem_singleton.mpr rfl)
  norm_num at this

/-- Witness for the amended C8: a circle that cannot reach the toe gives the
empty discretization, and a circle with positive column width gives slices
pairwise ordered by increasing midpoint. -/
theorem C8_slice_geometry_witness :
    ((⟨0, 10, 1⟩ : SlipCircle).radius ^ 2
        < ((⟨0, 10, 1⟩ : SlipCircle).y_center - testGeo.toe_elevation) ^ 2 ∧
      slice_geometry ⟨0, 10, 1⟩ testGeo 2 = []) ∧
    (0 < sliceWidth ⟨0, 3, 5⟩ testGeo 2 ∧
      (slice_geometry ⟨0, 3, 5⟩ testGeo 2).Pairwise (fun a b => a.x_mid < b.x_mid)) := by
  have hdeg : ((⟨0, 10, 1⟩ : SlipCircle) : SlipCircle).radius ^ 2
      < ((⟨0, 10, 1⟩ : SlipCircle).y_center - testGeo.toe_elevation) ^ 2 := by
    norm_num [testGeo]
  have hwpos : 0 < sliceWidth ⟨0, 3, 5⟩ testGeo 2 := by
    have h16 : Real.sqrt (16 : ℝ) = 4 := sqrt_eq_of_sq (by norm_num) (by norm_num)
    simp only [sliceWidth, sliceXRight, sliceXLeft, testGeo]
    rw [show ((5 : ℝ) ^ 2 - ((3 : ℝ) - 0) ^ 2) = 16 by norm_num, h16]
    norm_num [max_def, min_def]
  exact ⟨⟨hdeg, (C8_slice_geometry ⟨0, 10, 1⟩ testGeo 2).1 hdeg⟩,
    ⟨hwpos, (C8_slice_geometry ⟨0, 3, 5⟩ testGeo 2).2.2.2.1 hwpos⟩⟩

/-! ### C4: the critical-circle search -/

/-- A grid candidate is accepted by the search loop when its evaluation
passes all guards (so `evalCandidate` returns a result) and its factor of
safety exceeds the `0.1` floor. -/
def candidatePasses (g : SlopeGeometry) (soil_layers : List SoilLayer) (gwl : ℝ)
    (method : String) (seismic_coef : ℝ) (c : ℝ × ℝ × ℝ) : Prop :=
  ∃ r, evalCandidate g soil_layers gwl method seismic_coef c = some r ∧ 0.1 < r.fs

lemma runMethod_circle (method : String) (slices : List Slice)
    (soil_layers : List SoilLayer) (g : SlopeGeometry) (gwl : ℝ)
    (circle : SlipCircle) (k : ℝ) :
    (runMethod method slices soil_layers g gwl circle k).critical_circle = circle := by
  unfold runMethod swedish_method bishop_simplified
  split_ifs <;> rfl

lemma evalCandidate_circle {g : SlopeGeometry} {soil_layers : List SoilLayer}
    {gwl : ℝ} {method : String} {k : ℝ} {c : ℝ × ℝ × ℝ} {r : AnalysisResults}
    (h : evalCandidate g soil_layers gwl method k c = some r) :
    r.critical_circle = candidateCircle g c := by
  simp only [evalCandidate] at h
  split_ifs at h
  all_goals try exact Option.noConfusion h
  simp only [Option.some.injEq] at h
  subst h
  exact runMethod_circle method _ soil_layers g gwl _ k

lemma searchStep_some (g : SlopeGeometry) (soil_layers : List SoilLayer) (gwl : ℝ)
    (method : String) (k : ℝ) (b : AnalysisResults) (c : ℝ × ℝ × ℝ) :
    ∃ b2, searchStep g soil_layers gwl method k (some b) c = some b2 := by
  cases hev : evalCandidate g soil_layers gwl method k c with
  | none => exact ⟨b, by simp only [searchStep, hev]⟩
  | some r =>
    by_cases hfs : r.fs < b.fs ∧ r.fs > 0.1
    · exact ⟨r, by simp only [searchStep, hev]; rw [if_pos hfs]⟩
    · exact ⟨b, by simp only [searchStep, hev]; rw [if_neg hfs]⟩

lemma searchFold_some (g : SlopeGeometry) (soil_layers : List SoilLayer) (gwl : ℝ)
    (method : String) (k : ℝ) :
    ∀ (l : List (ℝ × ℝ × ℝ)) (b : AnalysisResults),
      ∃ b2, l.foldl (searchStep g soil_layers gwl method k) (some b) = some b2 := by
  intro l
  induction l with
  | nil => intro b; exact ⟨b, rfl⟩
  | cons c rest ih =>
    intro b
    rw [List.foldl_cons]
    rcases searchStep_some g soil_layers gwl method k b c with ⟨b2, hb2⟩
    rw [hb2]
    exact ih b2

/-- The fold of the search loop over a candidate list yields no best result
exactly when no candidate in the list passes. -/
lemma searchFold_none_iff (g : SlopeGeometry) (soil_layers : List SoilLayer) (gwl : ℝ)
    (method : String) (k : ℝ) :
    ∀ l : List (ℝ × ℝ × ℝ),
      l.foldl (searchStep g soil_layers gwl method k) none = none ↔
        ∀ c ∈ l, ¬ candidatePasses g soil_layers gwl method k c := by
  intro l
  induction l with
  | nil => simp
  | cons c rest ih =>
    rw [List.foldl_cons]
    cases hev : evalCandidate g soil_layers gwl method k c with
    | none =>
      have hstep : searchStep g soil_layers gwl method k none c = none := by
        simp only [searchStep, hev]
      rw [hstep, ih]
      constructor
      · intro h d hd
        rcases List.mem_cons.mp hd with rfl | hd2
        · rintro ⟨r, hr, _⟩
          rw [hev] at hr
          cases hr
        · exact h d hd2
      · intro h d hd
        exact h d (List.mem_cons_of_mem c hd)
    | some r =>
      by_cases hfs : r.fs > 0.1
      · have hstep : searchStep g soil_layers gwl method k none c = some r := by
          simp only [searchStep, hev]
          rw [if_pos hfs]
        rw [hstep]
        rcases searchFold_some g soil_layers gwl method k rest r with ⟨b2, hb2⟩
        rw [hb2]
        constructor
        · intro h
          cases h
        · intro h
          exact absurd ⟨r, hev, hfs⟩ (h c (List.mem_cons_self c rest))
      · have hstep : searchStep g soil_layers gwl method k none c = none := by
          simp only [searchStep, hev]
          rw [if_neg hfs]
        rw [hstep, ih]
        constructor
        · intro h d hd
          rcases List.mem_cons.mp hd with rfl | hd2
          · rintro ⟨r2, hr2, hr2fs⟩
            rw [hev] at hr2
            simp only [Option.some.injEq] at hr2
            subst hr2
            exact hfs hr2fs
          · exact h d hd2
        · intro h d hd
          exact h d (List.mem_cons_of_mem c hd)

/-- Any best result produced by the fold came from the starting accumulator
or from the evaluation of some candidate in the list. -/
lemma searchFold_source (g : SlopeGeometry) (soil_layers : List SoilLayer) (gwl : ℝ)
    (method : String) (k : ℝ) :
    ∀ (l : List (ℝ × ℝ × ℝ)) (acc : Option AnalysisResults) (r : AnalysisResults),
      l.foldl (searchStep g soil_layers gwl method k) acc = some r →
      acc = some r ∨ ∃ c ∈ l, evalCandidate g soil_layers gwl method k c = some r := by
  intro l
  induction l with
  | nil =>
    intro acc r h
    exact Or.inl h
  | cons c rest ih =>
    intro acc r h
    rw [List.foldl_cons] at h
    rcases ih _ r h with hacc | ⟨d, hd, hde⟩
    · cases acc with
      | none =>
        cases hev : evalCandidate g soil_layers gwl method k c with
        | none =>
          simp only [searchStep, hev] at hacc
          exact Or.inl hacc
        | some res =>
          simp only [searchStep, hev] at hacc
          by_cases hf : res.fs > 0.1
          · rw [if_pos hf] at hacc
            simp only [Option.some.injEq] at hacc
            subst hacc
            exact Or.inr ⟨c, List.mem_cons_self c rest, hev⟩
          · rw [if_neg hf] at hacc
            cases hacc
      | some b =>
        cases hev : evalCandidate g soil_layers gwl method k c with
        | none =>
          simp only [searchStep, hev] at hacc
          exact Or.inl hacc
        | some res =>
          simp only [searchStep, hev] at hacc
          by_cases hf : res.fs < b.fs ∧ res.fs > 0.1
          · rw [if_pos hf] at hacc
            simp only [Option.some.injEq] at hacc
            subst hacc
            exact Or.inr ⟨c, List.mem_cons_self c rest, hev⟩
          · rw [if_neg hf] at hacc
            exact Or.inl hacc
    · exact Or.inr ⟨d, List.mem_cons_of_mem c hd, hde⟩

/-- C4: `search_critical_circle` returns `none` exactly when no grid
candidate passes the geometric guards, the minimum-slice-count guard and the
`FS > 0.1` floor — it never falls back to a default result — and whenever it
does return a result, that result's critical circle is the circle of one of
the grid candidates (the refinement pass re-evaluates the winning circle but
does not change it). -/
theorem C4_search_exhaustion (g : SlopeGeometry) (soil_layers : List SoilLayer)
    (gwl : ℝ) (method : String) (n_circles : ℕ) (seismic_coef : ℝ) :
    (search_critical_circle g soil_layers gwl method n_circles seismic_coef = none ↔
      ∀ c ∈ searchCandidates g n_circles,
        ¬ candidatePasses g soil_layers gwl method seismic_coef c) ∧
    (search_critical_circle g soil_layers gwl method n_circles seismic_coef).elim True
      (fun r => ∃ c ∈ searchCandidates g n_circles,
        r.critical_circle = candidateCircle g c) := by
  cases hfold : (searchCandidates g n_circles).foldl
      (searchStep g soil_layers gwl method seismic_coef) none with
  | none =>
    have hsearch : search_critical_circle g soil_layers gwl method n_circles seismic_coef
        = none := by
      simp only [search_critical_circle, hfold]
    rw [hsearch]
    exact ⟨iff_of_true rfl
        ((searchFold_none_iff g soil_layers gwl method seismic_coef _).mp hfold),
      trivial⟩
  | some b =>
    have hsearch : search_critical_circle g soil_layers gwl method n_circles seismic_coef
        = some (runMethod method (slice_geometry b.critical_circle g 25) soil_layers g
            gwl b.critical_circle seismic_coef) := by
      simp only [search_critical_circle, hfold]
    rw [hsearch]
    constructor
    · constructor
      · intro h
        cases h
      · intro h
        have hnone := (searchFold_none_iff g soil_layers gwl method seismic_coef _).mpr h
        rw [hfold] at hnone
        cases hnone
    · have hcirc := runMethod_circle method (slice_geometry b.critical_circle g 25)
        soil_layers g gwl b.critical_circle seismic_coef
      rcases searchFold_source g soil_layers gwl method seismic_coef _ none b hfold with
        h | ⟨c, hc, hce⟩
      · cases h
      · exact ⟨c, hc, by rw [hcirc]; exact evalCandidate_circle hce⟩

/-! ### C9: the m_α divide-by-zero guard -/

/-- C9: the divisor used in Bishop's equation is never of magnitude below
`0.001`: `m_alpha_safe` keeps `m_α` whenever `|m_α| ≥ 0.001` and otherwise
replaces it by the constant `+0.001` — in particular a negative `m_α`
strictly between `−0.001` and `0` is replaced by the positive `0.001`. -/
theorem C9_m_alpha_guard (m : ℝ) :
    0.001 ≤ |m_alpha_safe m| ∧
    (0.001 ≤ |m| → m_alpha_safe m = m) ∧
    (-0.001 < m → m < 0 → m_alpha_safe m = 0.001) := by
  refine ⟨?_, ?_, ?_⟩
  · unfold m_alpha_safe
    split
    · rw [abs_of_pos (by norm_num)]
    · linarith [not_lt.mp (by assumption : ¬ |m| < 0.001)]
  · intro h
    unfold m_alpha_safe
    rw [if_neg (not_lt.mpr h)]
  · intro h1 h2
    unfold m_alpha_safe
    rw [if_pos (by rw [abs_of_neg h2]; linarith)]

/-- Witness for C9 at the concrete inputs `m = −0.0005` and `m = 2`. -/
theorem C9_m_alpha_guard_witness :
    m_alpha_safe (-0.0005) = 0.001 ∧ m_alpha_safe 2 = 2 :=
  ⟨(C9_m_alpha_guard (-0.0005)).2.2 (by norm_num) (by norm_num),
   (C9_m_alpha_guard 2).2.1 (by rw [abs_of_pos] <;> norm_num)⟩

/-! ### C10: soil query over an empty stack -/

/-- C10: with an empty soil-layer list, `get_soil_at_point` returns
`(none, false)` for every point, including points at or below the ground
surface (the second conjunct exhibits the surface at `x = 0` in the fixture
geometry lying at elevation `0`, so the point `(0, 0)` of the first conjunct
is on the surface yet still maps to NOT_FOUND). -/
theorem C10_empty_stack (x y : ℝ) (g : SlopeGeometry) (gwl : ℝ) :
    get_soil_at_point x y g [] gwl = (none, false) ∧
    (0 : ℝ) ≤ get_slope_surface_y 0 testGeo := by
  constructor
  · simp only [get_soil_at_point, findLayerAux, List.getLast?_nil]
    split <;> rfl
  · unfold get_slope_surface_y testGeo
    norm_num

end SlopeStability
